import Mathlib

/-!
Shallow embedding of the helgoboss-learn `Mode` control/feedback engine
(src/src/mode/mode_struct.rs) over exact rational arithmetic.

The pipeline logic (`control`, `control_absolute_normal`,
`control_absolute_incremental_buttons`, `control_absolute_toggle_buttons`,
`control_relative`, `pep_up_control_value`,
`hitting_target_considering_max_jump`, `hit_if_changed`,
`hit_discrete_target_absolutely`, `hit_target_absolutely_with_unit_increment`,
`pep_up_discrete_increment`, `its_time_to_fire`,
`convert_to_discrete_increment`, `round_to_nearest_discrete_value`) is
translated directly from mode_struct.rs.  The unit-arithmetic layer
(UnitValue / DiscreteIncrement / UnitIncrement operations), the
press-duration processor, the feedback helper and the modern Target view are
code of this repository that is not shipped under src/; those definitions
are modelled from the specification (and cross-checked against the unit
tests that ARE under src/, inside mode_struct.rs) and are marked as such in
their doc comments.

UnitValue is embedded as ℚ (with range side conditions stated where needed),
DiscreteIncrement as ℤ, UnitIncrement as ℚ.
-/

namespace HelgobossLearn

/-- Selector for the absolute sub-pipeline (enum `AbsoluteMode`). -/
inductive AbsoluteMode where
  | Normal
  | IncrementalButtons
  | ToggleButtons
deriving DecidableEq, Repr

/-- Behavior when a control/target value falls outside the configured
interval (enum `OutOfRangeBehavior`). -/
inductive OutOfRangeBehavior where
  | MinOrMax
  | Min
  | Ignore
deriving DecidableEq, Repr

/-- Choice of extreme that a collapsed (one-value) source interval projects
onto (enum `MinIsMaxBehavior`). -/
inductive MinIsMaxBehavior where
  | PreferZero
  | PreferOne
deriving DecidableEq, Repr

/-- Modelled from the spec: the modern `ControlType` enum (target character)
is not under src/; src/src/mode/target.rs only holds an older 4-variant
shape, while mode_struct.rs matches on all eight variants listed by the
spec, which pins this definition. -/
inductive ControlType where
  | AbsoluteContinuous
  | AbsoluteContinuousRoundable (rounding_step_size : ℚ)
  | AbsoluteDiscrete (atomic_step_size : ℚ)
  | AbsoluteTrigger
  | AbsoluteSwitch
  | Relative
  | VirtualMulti
  | VirtualButton
deriving DecidableEq, Repr

/-- Modelled from the spec: `ControlType::is_trigger` is not under src/.
Per the spec only `AbsoluteTrigger` is momentary ("no meaningful current
state"); `AbsoluteSwitch` is stateful, so equal-to-current suppression
applies to it (corroborated by the `default_target_is_trigger` test). -/
def ControlType.is_trigger : ControlType → Bool
  | .AbsoluteTrigger => true
  | _ => false

/-- Grid step size carried by a control type, if any (`rounding_step_size`
for roundable continuous targets, `atomic_step_size` for discrete ones). -/
def ControlType.gridSize : ControlType → Option ℚ
  | .AbsoluteContinuousRoundable g => some g
  | .AbsoluteDiscrete g => some g
  | _ => none

/-- Modelled from the spec: the modern `Target` view (`current_value()` →
`Option<UnitValue>`, `control_type()` → `ControlType`) is not under src/;
mode_struct.rs consumes exactly this shape. -/
structure Target where
  current_value : Option ℚ
  control_type : ControlType

/-- Boundary type `ControlValue`: either a fader/button amplitude or an
encoder tick. -/
inductive ControlValue where
  | Absolute (v : ℚ)
  | Relative (i : ℤ)
deriving DecidableEq, Repr

/-- Transformation hook: `(input, current_output) → Result<UnitValue, _>`,
embedded as a partial map; `none` is the error case. -/
abbrev Transformation := ℚ → ℚ → Option ℚ

/-- Closed interval over ℚ (struct `Interval<UnitValue>` from
src/src/base/interval.rs; the invariant `min ≤ max` is carried as a
hypothesis where needed). -/
structure UInterval where
  lo : ℚ
  hi : ℚ
deriving DecidableEq, Repr

/-- Containment check (`Interval::contains` /
`UnitValue::is_within_interval`). -/
def UInterval.contains (iv : UInterval) (v : ℚ) : Prop :=
  iv.lo ≤ v ∧ v ≤ iv.hi

instance (iv : UInterval) (v : ℚ) : Decidable (iv.contains v) := by
  unfold UInterval.contains; infer_instance

/-- Full-interval check: an interval is full iff it equals [0, 1]
(`Interval::is_full` for `UnitValue`). -/
def UInterval.isFull (iv : UInterval) : Prop :=
  iv.lo = 0 ∧ iv.hi = 1

instance (iv : UInterval) : Decidable iv.isFull := by
  unfold UInterval.isFull; infer_instance

/-- Center of an interval (`Interval::center` = (min + max) / 2, spec
§4.2). -/
def UInterval.center (iv : UInterval) : ℚ :=
  (iv.lo + iv.hi) / 2

/-- Validity of a unit-value interval: bounds ordered and inside [0, 1]. -/
def UInterval.Valid (iv : UInterval) : Prop :=
  0 ≤ iv.lo ∧ iv.lo ≤ iv.hi ∧ iv.hi ≤ 1

/-- Closed interval over ℤ (struct `Interval<DiscreteIncrement>`; bounds are
non-zero signed step counts, negative = throttling). -/
structure DInterval where
  lo : ℤ
  hi : ℤ
deriving DecidableEq, Repr

/-- Validity of a step-count interval: ordered, zero-free bounds. -/
def DInterval.Valid (iv : DInterval) : Prop :=
  iv.lo ≤ iv.hi ∧ iv.lo ≠ 0 ∧ iv.hi ≠ 0

/-- Clamp a rational into an interval (standard clamp used by
`UnitValue::clamp_to_interval` and `map_from_unit_interval_to`). -/
def clampTo (iv : UInterval) (v : ℚ) : ℚ :=
  max iv.lo (min iv.hi v)

/-- Clamp a rational into [0, 1] (`UnitValue::new_clamped`). -/
def clamp01 (v : ℚ) : ℚ :=
  max 0 (min 1 v)

/-- Modelled from the spec (§4.1, `UnitValue::map_to_unit_interval_from` is
not under src/): positive span → affine rescale clamped to [0, 1];
collapsed interval → the `MinIsMaxBehavior` extreme. -/
def mapToUnitIntervalFrom (v : ℚ) (src : UInterval) (b : MinIsMaxBehavior) : ℚ :=
  if 0 < src.hi - src.lo then clamp01 ((v - src.lo) / (src.hi - src.lo))
  else match b with
    | .PreferZero => 0
    | .PreferOne => 1

/-- Modelled from the spec (§4.1, `UnitValue::map_from_unit_interval_to` is
not under src/): `dst.min + u * dst.span`, clamped into `dst`. -/
def mapFromUnitIntervalTo (u : ℚ) (dst : UInterval) : ℚ :=
  clampTo dst (dst.lo + u * (dst.hi - dst.lo))

/-- Modelled from the spec (§4.1, `UnitValue::inverse` is not under src/):
`1 − u`. -/
def inverseU (u : ℚ) : ℚ := 1 - u

/-- Modelled from the spec (§4.1,
`UnitValue::snap_to_grid_by_interval_size` is not under src/):
`round(u / g) * g` clamped to [0, 1]; a zero grid size is treated as "no
grid" (the spec formula is undefined there and no test exercises it). -/
def snapToGrid (u g : ℚ) : ℚ :=
  if g = 0 then clamp01 u else clamp01 ((round (u / g) : ℚ) * g)

/-- Modelled from the spec (§4.1, `UnitValue::calc_distance_from` is not
under src/): absolute difference. -/
def calcDistanceFrom (a b : ℚ) : ℚ := |a - b|

/-- Modelled from the spec (§4.1, `UnitValue::add_clamping` is not under
src/): inside the interval the sum is clamped into it; a value outside the
interval moves to the nearest bound (pinned by the
`target_interval_current_target_value_out_of_range` tests in
mode_struct.rs: from current 0 below [0.2, 0.8], both +1 and −1 land on
0.2; the spec's sign-based out-of-range rule only matches `add_rotating`). -/
def addClamping (v inc : ℚ) (iv : UInterval) : ℚ :=
  if iv.contains v then clampTo iv (v + inc)
  else clampTo iv v

/-- Modelled from the spec (§4.1, `UnitValue::add_rotating` is not under
src/): a value outside the interval jumps to the bound on the side of the
increment's sign (positive → min, negative → max, pinned by the
rotate-out-of-range tests in mode_struct.rs); inside, an overshoot past
`max` wraps to `min` and past `min` wraps to `max` (spec: "iv.max + ε →
iv.min", pinned by the rotate tests). -/
def addRotating (v inc : ℚ) (iv : UInterval) : ℚ :=
  if iv.contains v then
    let s := v + inc
    if s > iv.hi then iv.lo
    else if s < iv.lo then iv.hi
    else s
  else if 0 < inc then iv.lo else iv.hi

/-- Modelled from the spec (`UnitValue::to_increment(negative_if(..))` is
not under src/): attach a sign to a magnitude, failing on zero. -/
def uvToIncrement (v : ℚ) (negative : Bool) : Option ℚ :=
  if v = 0 then none else some (if negative then -v else v)

/-- Modelled from the spec (`UnitIncrement::clamp_to_interval` is not under
src/): clamp the magnitude into the interval, preserving the sign (pinned
by the relative-mode step-size tests in mode_struct.rs). -/
def uiClampToInterval (u : ℚ) (iv : UInterval) : ℚ :=
  let m := clampTo iv |u|
  if u < 0 then -m else m

/-- Modelled from the spec (`DiscreteIncrement::to_unit_increment` is not
under src/): magnitude times step size, capped at 1 (a UnitIncrement
magnitude cannot exceed 1), signed like the increment; `none` on zero. -/
def diToUnitIncrement (i : ℤ) (size : ℚ) : Option ℚ :=
  let m := min ((i.natAbs : ℚ) * size) 1
  if m = 0 then none else some (if i < 0 then -m else m)

/-- Modelled from the spec (`DiscreteIncrement::clamp_to_interval` is not
under src/): the increment's magnitude m selects the m-th element of the
interval's zero-skipping integer range, capped at the interval's top
(pinned by the step-count tests in mode_struct.rs, e.g. |−10| in [−4, 100]
→ 6 and 2 in [4, 100] → 5). -/
def diClampToInterval (i : ℤ) (iv : DInterval) : ℤ :=
  let raw := iv.lo + (i.natAbs : ℤ) - 1
  let v := if iv.lo < 0 ∧ 0 ≤ raw then raw + 1 else raw
  min v iv.hi

/-- Modelled from the spec (`DiscreteIncrement::with_direction` is not
under src/): keep the magnitude, take the sign from `sign`. -/
def withDirection (i sign : ℤ) : ℤ :=
  if sign < 0 then -(i.natAbs : ℤ) else (i.natAbs : ℤ)

/-- Modelled from the spec (§4.1,
`UnitValue::map_from_unit_interval_to_discrete_increment` is not under
src/): linear scale of u onto [lo, hi] by rounding, with zero redirected to
+1 (pinned by the incremental-buttons step-count tests in mode_struct.rs,
e.g. u = 0.5 on [4, 8] → 6 and u = 0.1 on [1, 100] → 11). -/
def mapFromUnitIntervalToDiscreteIncrement (u : ℚ) (iv : DInterval) : ℤ :=
  let r := iv.lo + round (u * ((iv.hi - iv.lo : ℤ) : ℚ))
  if r = 0 then 1 else r

/-- Modelled from the spec (§4.3, `PressDurationProcessor` is not under
src/): configuration is a hold window `[minMillis, maxMillis]` where
`maxMillis = none` stands for the unbounded ("∞-ish") default; the state
records the last press's timestamp and amplitude. -/
structure PressDurationProcessor where
  minMillis : ℕ
  maxMillis : Option ℕ
  pressTime : Option ℕ
  pressValue : ℚ
deriving DecidableEq, Repr

/-- Default press-duration configuration `[0, ∞)`: acts as identity. -/
def PressDurationProcessor.default : PressDurationProcessor :=
  ⟨0, none, none, 0⟩

/-- Modelled from the spec (§4.3): with the default `[0, ∞)` window the
sample passes through unchanged; otherwise a press (v > 0) records the
timestamp and amplitude and suppresses the sample, and a release (v = 0)
emits the recorded amplitude iff the held duration lies in the window,
resetting the state after emission. -/
def PressDurationProcessor.process (p : PressDurationProcessor) (v : ℚ)
    (now : ℕ) : Option ℚ × PressDurationProcessor :=
  if p.minMillis = 0 ∧ p.maxMillis = none then (some v, p)
  else if 0 < v then
    (none, { p with pressTime := some now, pressValue := v })
  else match p.pressTime with
    | none => (none, p)
    | some t =>
      let dur := now - t
      let inWindow : Bool :=
        decide (p.minMillis ≤ dur) &&
          (match p.maxMillis with
            | none => true
            | some h => decide (dur ≤ h))
      if inWindow then
        (some p.pressValue, { p with pressTime := none, pressValue := 0 })
      else (none, p)

/-- Settings and state for processing control values (struct `Mode<T>` from
mode_struct.rs, with the transformation type instantiated to the embedded
`Transformation`). -/
structure Mode where
  absolute_mode : AbsoluteMode
  source_value_interval : UInterval
  target_value_interval : UInterval
  step_count_interval : DInterval
  step_size_interval : UInterval
  jump_interval : UInterval
  press_duration_processor : PressDurationProcessor
  approach_target_value : Bool
  reverse : Bool
  rotate : Bool
  round_target_value : Bool
  out_of_range_behavior : OutOfRangeBehavior
  control_transformation : Option Transformation
  feedback_transformation : Option Transformation
  increment_counter : ℤ

/-- Default Mode configuration (`impl Default for Mode<T>`). -/
def Mode.default : Mode where
  absolute_mode := .Normal
  source_value_interval := ⟨0, 1⟩
  target_value_interval := ⟨0, 1⟩
  step_size_interval := ⟨1/100, 1/100⟩
  step_count_interval := ⟨1, 1⟩
  jump_interval := ⟨0, 1⟩
  press_duration_processor := .default
  approach_target_value := false
  reverse := false
  round_target_value := false
  out_of_range_behavior := .MinOrMax
  control_transformation := none
  feedback_transformation := none
  rotate := false
  increment_counter := 0

/-- Validity of a Mode configuration: all five intervals well-formed. -/
def Mode.Valid (m : Mode) : Prop :=
  m.source_value_interval.Valid ∧ m.target_value_interval.Valid ∧
    m.step_size_interval.Valid ∧ m.jump_interval.Valid ∧
    m.step_count_interval.Valid

/-- Validity of a target view: grid step sizes in (0, 1] (spec invariant on
`AbsoluteContinuousRoundable` / `AbsoluteDiscrete`). -/
def Target.Valid (t : Target) : Prop :=
  match t.control_type.gridSize with
  | none => True
  | some g => 0 < g ∧ g ≤ 1

/-- Translation of free function `round_to_nearest_discrete_value`
(mode_struct.rs): snap to the target's grid when it has one. -/
def round_to_nearest_discrete_value (control_type : ControlType)
    (approximate_control_value : ℚ) : ℚ :=
  match control_type.gridSize with
  | some g => snapToGrid approximate_control_value g
  | none => approximate_control_value

/-- Translation of `Mode::pep_up_control_value`: source-interval
projection, optional transformation (errors fall back to the input),
reverse, target-interval mapping, optional rounding. -/
def Mode.pep_up_control_value (m : Mode) (control_value : ℚ)
    (control_type : ControlType) (current_target_value : Option ℚ)
    (min_is_max_behavior : MinIsMaxBehavior) : ℚ :=
  let v1 := mapToUnitIntervalFrom control_value m.source_value_interval
    min_is_max_behavior
  let v2 := match m.control_transformation with
    | none => v1
    | some t => (t v1 (current_target_value.getD 0)).getD v1
  let v3 := if m.reverse then inverseU v2 else v2
  let v4 := mapFromUnitIntervalTo v3 m.target_value_interval
  if m.round_target_value then round_to_nearest_discrete_value control_type v4
  else v4

/-- Translation of `Mode::hit_if_changed`: suppress values equal to the
current target value except for trigger targets. -/
def Mode.hit_if_changed (_m : Mode) (desired_target_value : ℚ)
    (current_target_value : ℚ) (control_type : ControlType) : Option ℚ :=
  if ¬control_type.is_trigger ∧ current_target_value = desired_target_value
  then none
  else some desired_target_value

/-- Translation of `Mode::hitting_target_considering_max_jump`: jump filter
with optional approach scaling. -/
def Mode.hitting_target_considering_max_jump (m : Mode) (control_value : ℚ)
    (current_target_value : Option ℚ) (control_type : ControlType) :
    Option ℚ :=
  match current_target_value with
  | none => some control_value
  | some current =>
    if m.jump_interval.isFull then
      m.hit_if_changed control_value current control_type
    else
      let distance := calcDistanceFrom control_value current
      if distance > m.jump_interval.hi then
        if ¬m.approach_target_value then none
        else
          let approach_distance := mapFromUnitIntervalTo distance
            m.jump_interval
          match uvToIncrement approach_distance
            (decide (control_value < current)) with
          | none => none
          | some approach_increment =>
            let final_target_value := addClamping current approach_increment
              m.target_value_interval
            m.hit_if_changed final_target_value current control_type
      else if distance < m.jump_interval.lo then none
      else m.hit_if_changed control_value current control_type

/-- Translation of the source-interval projection at the top of
`Mode::control_absolute_normal` (the `if/else` choosing `source_bound_value`
and `min_is_max_behavior`, with `Ignore` returning `None`). -/
def Mode.source_bound_value (m : Mode) (control_value : ℚ) :
    Option (ℚ × MinIsMaxBehavior) :=
  if m.source_value_interval.contains control_value then
    some (control_value, .PreferOne)
  else match m.out_of_range_behavior with
    | .MinOrMax =>
      if control_value < m.source_value_interval.lo then
        some (m.source_value_interval.lo, .PreferZero)
      else some (m.source_value_interval.hi, .PreferOne)
    | .Min => some (m.source_value_interval.lo, .PreferZero)
    | .Ignore => none

/-- Translation of `Mode::control_absolute_normal` minus the press-duration
gate (which is applied by the caller-side wrapper below): projection,
pep-up, jump filter. -/
def Mode.absolute_normal_after_gate (m : Mode) (control_value : ℚ)
    (target : Target) : Option ℚ :=
  match m.source_bound_value control_value with
  | none => none
  | some (bound_value, min_is_max_behavior) =>
    let current_target_value := target.current_value
    let control_type := target.control_type
    let pepped_up := m.pep_up_control_value bound_value control_type
      current_target_value min_is_max_behavior
    m.hitting_target_considering_max_jump pepped_up current_target_value
      control_type

/-- Translation of `Mode::control_absolute_normal` including the
press-duration gate; returns the produced value and the updated Mode. -/
def Mode.control_absolute_normal (m : Mode) (control_value : ℚ)
    (target : Target) (now : ℕ) : Option ℚ × Mode :=
  match m.press_duration_processor.process control_value now with
  | (gated, p) =>
    let m := { m with press_duration_processor := p }
    match gated with
    | none => (none, m)
    | some v => (m.absolute_normal_after_gate v target, m)

/-- Translation of `Mode::hit_target_absolutely_with_unit_increment`: snap
the target interval (and, if it only appears out of range, the current
value) to the grid, then add the increment rotating or clamping. -/
def Mode.hit_target_absolutely_with_unit_increment (m : Mode)
    (increment : ℚ) (grid_interval_size : ℚ) (current_target_value : ℚ) :
    Option ControlValue :=
  let snapped : UInterval :=
    ⟨snapToGrid m.target_value_interval.lo grid_interval_size,
      snapToGrid m.target_value_interval.hi grid_interval_size⟩
  let snapped_current :=
    if snapped.contains current_target_value then current_target_value
    else snapToGrid current_target_value grid_interval_size
  let desired :=
    if m.rotate then addRotating snapped_current increment snapped
    else addClamping snapped_current increment snapped
  if desired = current_target_value then none
  else some (.Absolute desired)

/-- Translation of `Mode::hit_discrete_target_absolutely`. -/
def Mode.hit_discrete_target_absolutely (m : Mode)
    (discrete_increment : ℤ) (target_step_size : ℚ)
    (current_value : Option ℚ) : Option ControlValue :=
  match diToUnitIncrement discrete_increment target_step_size with
  | none => none
  | some unit_increment =>
    match current_value with
    | none => none
    | some c =>
      m.hit_target_absolutely_with_unit_increment unit_increment
        target_step_size c

/-- Translation of `Mode::its_time_to_fire`: decides whether a throttled
increment fires and computes the next counter value. -/
def Mode.its_time_to_fire (m : Mode) (nth : ℕ) (direction_signum : ℤ) :
    Bool × ℤ :=
  if m.increment_counter = 0 then (true, direction_signum)
  else if Int.sign m.increment_counter ≠ direction_signum then
    (true, direction_signum)
  else if (nth : ℤ) ≤ |m.increment_counter| then (true, direction_signum)
  else (false, m.increment_counter + direction_signum)

/-- Translation of `Mode::pep_up_discrete_increment`: clamp into the
step-count interval, throttle on a negative factor, restore the input's
direction, apply reverse. -/
def Mode.pep_up_discrete_increment (m : Mode) (increment : ℤ) :
    Option ℤ × Mode :=
  let factor := diClampToInterval increment m.step_count_interval
  if 0 < factor then
    let clamped := withDirection factor (Int.sign increment)
    (some (if m.reverse then -clamped else clamped), m)
  else
    let nth := factor.natAbs
    let fire_new := m.its_time_to_fire nth (Int.sign increment)
    let m' := { m with increment_counter := fire_new.2 }
    if fire_new.1 then
      let clamped := withDirection 1 (Int.sign increment)
      (some (if m'.reverse then -clamped else clamped), m')
    else (none, m')

/-- Translation of `Mode::convert_to_discrete_increment`: map the absolute
amplitude through the source interval into the step-count interval;
positive factor used directly, negative factor throttled with direction
+1; reverse flips the final sign. -/
def Mode.convert_to_discrete_increment (m : Mode) (control_value : ℚ) :
    Option ℤ × Mode :=
  let factor := mapFromUnitIntervalToDiscreteIncrement
    (mapToUnitIntervalFrom control_value m.source_value_interval .PreferOne)
    m.step_count_interval
  if 0 < factor then
    let dv : ℤ := factor.natAbs
    ((if dv = 0 then none
      else some (if m.reverse then -dv else dv)), m)
  else
    let nth := factor.natAbs
    let fire_new := m.its_time_to_fire nth 1
    let m' := { m with increment_counter := fire_new.2 }
    if fire_new.1 then
      ((if m'.reverse then some (-1) else some 1), m')
    else (none, m')

/-- Translation of `Mode::control_relative`: dispatch on the target's
control type; continuous-like targets get a unit increment derived from
the step-size interval, discrete and relative-like targets get a pepped-up
discrete increment. -/
def Mode.control_relative (m : Mode) (discrete_increment : ℤ)
    (target : Target) : Option ControlValue × Mode :=
  match target.control_type with
  | .AbsoluteContinuous | .AbsoluteContinuousRoundable _
  | .AbsoluteSwitch | .AbsoluteTrigger =>
    let potentially_reversed :=
      if m.reverse then -discrete_increment else discrete_increment
    match diToUnitIncrement potentially_reversed
      m.step_size_interval.lo with
    | none => (none, m)
    | some unit_increment =>
      let clamped := uiClampToInterval unit_increment m.step_size_interval
      match target.current_value with
      | none => (none, m)
      | some c =>
        (m.hit_target_absolutely_with_unit_increment clamped
          m.step_size_interval.lo c, m)
  | .AbsoluteDiscrete atomic_step_size =>
    match m.pep_up_discrete_increment discrete_increment with
    | (none, m') => (none, m')
    | (some pepped, m') =>
      (m'.hit_discrete_target_absolutely pepped atomic_step_size
        target.current_value, m')
  | .Relative | .VirtualMulti =>
    match m.pep_up_discrete_increment discrete_increment with
    | (none, m') => (none, m')
    | (some pepped, m') => (some (.Relative pepped), m')
  | .VirtualButton => (none, m)

/-- Translation of `Mode::control_absolute_incremental_buttons` minus the
press-duration gate (applied by the wrapper): zero and out-of-source
values are ignored, then the target's control type selects step-size or
step-count processing. -/
def Mode.incremental_buttons_after_gate (m : Mode) (control_value : ℚ)
    (target : Target) : Option ControlValue × Mode :=
  if control_value = 0 ∨
      ¬m.source_value_interval.contains control_value then (none, m)
  else match target.control_type with
    | .AbsoluteContinuous | .AbsoluteContinuousRoundable _
    | .AbsoluteTrigger | .AbsoluteSwitch =>
      let step_size_value := mapFromUnitIntervalTo
        (mapToUnitIntervalFrom control_value m.source_value_interval
          .PreferOne)
        m.step_size_interval
      match uvToIncrement step_size_value m.reverse with
      | none => (none, m)
      | some step_size_increment =>
        match target.current_value with
        | none => (none, m)
        | some c =>
          (m.hit_target_absolutely_with_unit_increment step_size_increment
            m.step_size_interval.lo c, m)
    | .AbsoluteDiscrete atomic_step_size =>
      match m.convert_to_discrete_increment control_value with
      | (none, m') => (none, m')
      | (some di, m') =>
        (m'.hit_discrete_target_absolutely di atomic_step_size
          target.current_value, m')
    | .Relative | .VirtualMulti =>
      match m.convert_to_discrete_increment control_value with
      | (none, m') => (none, m')
      | (some di, m') => (some (.Relative di), m')
    | .VirtualButton => (none, m)

/-- Translation of `Mode::control_absolute_incremental_buttons` including
the press-duration gate. -/
def Mode.control_absolute_incremental_buttons (m : Mode)
    (control_value : ℚ) (target : Target) (now : ℕ) :
    Option ControlValue × Mode :=
  match m.press_duration_processor.process control_value now with
  | (gated, p) =>
    let m := { m with press_duration_processor := p }
    match gated with
    | none => (none, m)
    | some v => m.incremental_buttons_after_gate v target

/-- Translation of `Mode::control_absolute_toggle_buttons` minus the
press-duration gate (applied by the wrapper): ignore zero, require a
current value, toggle between the target interval's bounds relative to its
center, suppressing a no-op. -/
def Mode.toggle_buttons_after_gate (m : Mode) (control_value : ℚ)
    (target : Target) : Option ℚ :=
  if control_value = 0 then none
  else
    let center_target_value := m.target_value_interval.center
    match target.current_value with
    | none => none
    | some current =>
      let desired :=
        if current > center_target_value then m.target_value_interval.lo
        else m.target_value_interval.hi
      if desired = current then none else some desired

/-- Translation of `Mode::control_absolute_toggle_buttons` including the
press-duration gate. -/
def Mode.control_absolute_toggle_buttons (m : Mode) (control_value : ℚ)
    (target : Target) (now : ℕ) : Option ℚ × Mode :=
  match m.press_duration_processor.process control_value now with
  | (gated, p) =>
    let m := { m with press_duration_processor := p }
    match gated with
    | none => (none, m)
    | some v => (m.toggle_buttons_after_gate v target, m)

/-- Translation of `Mode::control`, the entry point of the control
pipeline.  The extra `now` argument supplies the wall-clock timestamp the
spec's press-duration processor consumes (§4.3); the Rust processor reads
it from a clock internally. -/
def Mode.control (m : Mode) (control_value : ControlValue)
    (target : Target) (now : ℕ) : Option ControlValue × Mode :=
  match control_value with
  | .Relative i => m.control_relative i target
  | .Absolute v =>
    match m.absolute_mode with
    | .Normal =>
      match m.control_absolute_normal v target now with
      | (r, m') => (r.map .Absolute, m')
    | .IncrementalButtons =>
      m.control_absolute_incremental_buttons v target now
    | .ToggleButtons =>
      match m.control_absolute_toggle_buttons v target now with
      | (r, m') => (r.map .Absolute, m')

/-- Modelled from the spec (§4.7, `feedback_util::feedback` is not under
src/): out-of-range target values resolve by `OutOfRangeBehavior`;
in-range values are projected through the target interval, the optional
feedback transformation (errors fall back), reverse, and the source
interval. -/
def Mode.feedback (m : Mode) (target_value : ℚ) : Option ℚ :=
  if ¬m.target_value_interval.contains target_value then
    match m.out_of_range_behavior with
    | .Ignore => none
    | .Min => some (mapFromUnitIntervalTo 0 m.source_value_interval)
    | .MinOrMax =>
      if target_value < m.target_value_interval.lo then
        some m.source_value_interval.lo
      else some m.source_value_interval.hi
  else
    let u1 := mapToUnitIntervalFrom target_value m.target_value_interval
      .PreferOne
    let u2 := match m.feedback_transformation with
      | none => u1
      | some t => (t u1 u1).getD u1
    let u3 := if m.reverse then inverseU u2 else u2
    some (mapFromUnitIntervalTo u3 m.source_value_interval)

/-! ### Basic clamping and snapping lemmas -/

theorem roundMono {a b : ℚ} (h : a ≤ b) : round a ≤ round b := by
  rw [round_eq, round_eq]
  exact Int.floor_mono (by linarith)

theorem clampTo_mem (iv : UInterval) (h : iv.lo ≤ iv.hi) (v : ℚ) :
    iv.contains (clampTo iv v) := by
  unfold UInterval.contains clampTo
  exact ⟨le_max_left _ _, max_le h (min_le_left _ _)⟩

theorem clampTo_eq_of_mem {iv : UInterval} {v : ℚ} (h : iv.contains v) :
    clampTo iv v = v := by
  unfold clampTo
  rw [min_eq_right h.2, max_eq_right h.1]

theorem clamp01_nonneg (v : ℚ) : 0 ≤ clamp01 v := le_max_left _ _

theorem clamp01_le_one (v : ℚ) : clamp01 v ≤ 1 :=
  max_le zero_le_one (min_le_left _ _)

theorem clamp01_eq_of_mem {v : ℚ} (h0 : 0 ≤ v) (h1 : v ≤ 1) :
    clamp01 v = v := by
  unfold clamp01
  rw [min_eq_right h1, max_eq_right h0]

theorem clamp01_mono {a b : ℚ} (h : a ≤ b) : clamp01 a ≤ clamp01 b :=
  max_le_max le_rfl (min_le_min le_rfl h)

theorem mapFromUnitIntervalTo_mem (u : ℚ) (dst : UInterval)
    (h : dst.lo ≤ dst.hi) : dst.contains (mapFromUnitIntervalTo u dst) :=
  clampTo_mem dst h _

theorem mapToUnitIntervalFrom_nonneg (v : ℚ) (src : UInterval)
    (b : MinIsMaxBehavior) : 0 ≤ mapToUnitIntervalFrom v src b := by
  unfold mapToUnitIntervalFrom
  split
  · exact clamp01_nonneg _
  · cases b <;> norm_num

theorem mapToUnitIntervalFrom_le_one (v : ℚ) (src : UInterval)
    (b : MinIsMaxBehavior) : mapToUnitIntervalFrom v src b ≤ 1 := by
  unfold mapToUnitIntervalFrom
  split
  · exact clamp01_le_one _
  · cases b <;> norm_num

theorem addClamping_mem (v inc : ℚ) (iv : UInterval) (h : iv.lo ≤ iv.hi) :
    iv.contains (addClamping v inc iv) := by
  unfold addClamping
  split
  · exact clampTo_mem iv h _
  · exact clampTo_mem iv h _

theorem addRotating_mem (v inc : ℚ) (iv : UInterval) (h : iv.lo ≤ iv.hi) :
    iv.contains (addRotating v inc iv) := by
  unfold addRotating UInterval.contains
  split
  · simp only []
    split
    · exact ⟨le_refl _, h⟩
    · split
      · exact ⟨h, le_refl _⟩
      · constructor
        · linarith [not_lt.mp (by assumption : ¬v + inc < iv.lo)]
        · linarith [not_lt.mp (by assumption : ¬v + inc > iv.hi)]
  · split
    · exact ⟨le_refl _, h⟩
    · exact ⟨h, le_refl _⟩

theorem snapToGrid_mono {g : ℚ} (hg : 0 ≤ g) {a b : ℚ} (hab : a ≤ b) :
    snapToGrid a g ≤ snapToGrid b g := by
  unfold snapToGrid
  split
  · exact clamp01_mono hab
  · have hg' : 0 < g := lt_of_le_of_ne hg (Ne.symm (by assumption))
    refine clamp01_mono ?_
    have hdiv : a / g ≤ b / g := (div_le_div_iff_of_pos_right hg').mpr hab
    exact mul_le_mul_of_nonneg_right
      (Int.cast_le.mpr (roundMono hdiv)) hg

theorem snapToGrid_zero_of_mem {a : ℚ} (h0 : 0 ≤ a) (h1 : a ≤ 1) :
    snapToGrid a 0 = a := by
  unfold snapToGrid
  simp [clamp01_eq_of_mem h0 h1]

/-! ### Range lemmas for the hitting helpers and the pep-up chain -/

/-- Helper for the "emit iff changed" tail of the hitting helpers. -/
theorem emit_if_changed_eq {d cur v : ℚ}
    (h : (if d = cur then none else some (ControlValue.Absolute d)) =
      some (.Absolute v)) : v = d := by
  split at h
  · exact absurd h (by simp)
  · simp only [Option.some.injEq, ControlValue.Absolute.injEq] at h
    exact h.symm

/-- Every value emitted by `hit_target_absolutely_with_unit_increment` lies
between the grid-snapped bounds of the target interval. -/
theorem hit_target_emits_in_snapped_interval (m : Mode) (inc g cur : ℚ)
    (hiv : m.target_value_interval.Valid) (hg : 0 ≤ g) (v : ℚ)
    (h : m.hit_target_absolutely_with_unit_increment inc g cur =
      some (.Absolute v)) :
    snapToGrid m.target_value_interval.lo g ≤ v ∧
      v ≤ snapToGrid m.target_value_interval.hi g := by
  have hlohi : snapToGrid m.target_value_interval.lo g ≤
      snapToGrid m.target_value_interval.hi g :=
    snapToGrid_mono hg hiv.2.1
  unfold Mode.hit_target_absolutely_with_unit_increment at h
  dsimp only [] at h
  obtain rfl := emit_if_changed_eq h
  split
  · exact addRotating_mem _ _ _ hlohi
  · exact addClamping_mem _ _ _ hlohi

/-- Every value emitted by `hit_discrete_target_absolutely` lies between
the grid-snapped bounds of the target interval. -/
theorem hit_discrete_emits_in_snapped_interval (m : Mode) (di : ℤ)
    (g : ℚ) (cur : Option ℚ) (hiv : m.target_value_interval.Valid)
    (hg : 0 ≤ g) (v : ℚ)
    (h : m.hit_discrete_target_absolutely di g cur = some (.Absolute v)) :
    snapToGrid m.target_value_interval.lo g ≤ v ∧
      v ≤ snapToGrid m.target_value_interval.hi g := by
  unfold Mode.hit_discrete_target_absolutely at h
  rcases hdi : diToUnitIncrement di g with _ | ui <;> rw [hdi] at h
  · exact absurd h (by simp)
  · rcases cur with _ | c
    · exact absurd h (by simp)
    · exact hit_target_emits_in_snapped_interval m ui g c hiv hg v h

/-- Optional-rounding step: a value inside a valid target interval stays
between the interval bounds snapped to an applicable grid (the trivial
grid 0 when no grid rounding applies). -/
theorem round_step_mem (m : Mode) (ct : ControlType) (v4 : ℚ)
    (hiv : m.target_value_interval.Valid)
    (hct : ∀ g, ct.gridSize = some g → 0 ≤ g)
    (hv4 : m.target_value_interval.contains v4) :
    ∃ g : ℚ, 0 ≤ g ∧ (g = 0 ∨ ct.gridSize = some g) ∧
      snapToGrid m.target_value_interval.lo g ≤
        (if m.round_target_value then
          round_to_nearest_discrete_value ct v4 else v4) ∧
      (if m.round_target_value then
        round_to_nearest_discrete_value ct v4 else v4) ≤
        snapToGrid m.target_value_interval.hi g := by
  obtain ⟨h0, h1, h2⟩ := hiv
  have hzlo : snapToGrid m.target_value_interval.lo 0 =
      m.target_value_interval.lo :=
    snapToGrid_zero_of_mem h0 (le_trans h1 h2)
  have hzhi : snapToGrid m.target_value_interval.hi 0 =
      m.target_value_interval.hi :=
    snapToGrid_zero_of_mem (le_trans h0 h1) h2
  by_cases hr : m.round_target_value
  · simp only [hr, if_true]
    unfold round_to_nearest_discrete_value
    rcases hgz : ct.gridSize with _ | gz
    · refine ⟨0, le_refl 0, Or.inl rfl, ?_⟩
      rw [hzlo, hzhi]
      exact hv4
    · have hgz0 : 0 ≤ gz := hct gz hgz
      refine ⟨gz, hgz0, Or.inr rfl, ?_, ?_⟩
      · exact snapToGrid_mono hgz0 hv4.1
      · exact snapToGrid_mono hgz0 hv4.2
  · simp only [hr, if_false]
    refine ⟨0, le_refl 0, Or.inl rfl, ?_⟩
    rw [hzlo, hzhi]
    exact hv4

/-- The pepped-up control value lies between the bounds of the target
interval snapped to an applicable grid. -/
theorem pep_up_control_value_mem (m : Mode) (cv : ℚ) (ct : ControlType)
    (c : Option ℚ) (b : MinIsMaxBehavior)
    (hiv : m.target_value_interval.Valid)
    (hct : ∀ g, ct.gridSize = some g → 0 ≤ g) :
    ∃ g : ℚ, 0 ≤ g ∧ (g = 0 ∨ ct.gridSize = some g) ∧
      snapToGrid m.target_value_interval.lo g ≤
        m.pep_up_control_value cv ct c b ∧
      m.pep_up_control_value cv ct c b ≤
        snapToGrid m.target_value_interval.hi g := by
  unfold Mode.pep_up_control_value
  exact round_step_mem m ct _ hiv hct
    (mapFromUnitIntervalTo_mem _ _ hiv.2.1)

/-- Applicable-grid predicate for the output invariant: a value counts as
inside the target interval "up to grid snapping" when it lies between the
bounds snapped to the trivial grid 0 (no snapping), to the step-size
minimum (the grid used by increment hitting), or to the target's own grid
step size. -/
def Mode.InTargetUpToSnap (m : Mode) (t : Target) (v : ℚ) : Prop :=
  ∃ g : ℚ, 0 ≤ g ∧
    (g = 0 ∨ g = m.step_size_interval.lo ∨
      t.control_type.gridSize = some g) ∧
    snapToGrid m.target_value_interval.lo g ≤ v ∧
    v ≤ snapToGrid m.target_value_interval.hi g

theorem Target.valid_grid_nonneg (t : Target) (ht : t.Valid) :
    ∀ g, t.control_type.gridSize = some g → 0 ≤ g := by
  intro g hg
  unfold Target.Valid at ht
  rw [hg] at ht
  exact le_of_lt ht.1

theorem hit_if_changed_eq (m : Mode) {d cur v : ℚ} {ct : ControlType}
    (h : m.hit_if_changed d cur ct = some v) : v = d := by
  unfold Mode.hit_if_changed at h
  split at h
  · exact absurd h (by simp)
  · simp only [Option.some.injEq] at h
    exact h.symm

/-- Values emitted by the jump filter are either the pepped-up value
itself or an approach step clamped into the target interval. -/
theorem hitting_emits_cases (m : Mode) (cv : ℚ) (c : Option ℚ)
    (ct : ControlType) (v : ℚ)
    (h : m.hitting_target_considering_max_jump cv c ct = some v) :
    v = cv ∨ ∃ cur inc, v = addClamping cur inc m.target_value_interval := by
  unfold Mode.hitting_target_considering_max_jump at h
  rcases c with _ | cur
  · simp only [Option.some.injEq] at h
    exact Or.inl h.symm
  · dsimp only [] at h
    split at h
    · exact Or.inl (hit_if_changed_eq m h)
    · split at h
      · split at h
        · exact absurd h (by simp)
        · split at h
          · exact absurd h (by simp)
          · exact Or.inr ⟨cur, _, hit_if_changed_eq m h⟩
      · split at h
        · exact absurd h (by simp)
        · exact Or.inl (hit_if_changed_eq m h)

/-- Variant of `emit_if_changed_eq` for plain rational emissions. -/
theorem emit_some_if_changed_eq {d cur v : ℚ}
    (h : (if d = cur then none else some d) = some v) : v = d := by
  split at h
  · exact absurd h (by simp)
  · simp only [Option.some.injEq] at h
    exact h.symm

/-- Values emitted by the toggle pipeline are one of the target interval's
bounds. -/
theorem toggle_emits_bound (m : Mode) (cv : ℚ) (t : Target) (v : ℚ)
    (h : m.toggle_buttons_after_gate cv t = some v) :
    v = m.target_value_interval.lo ∨ v = m.target_value_interval.hi := by
  unfold Mode.toggle_buttons_after_gate at h
  split at h
  · exact absurd h (by simp)
  · dsimp only [] at h
    rcases hc : t.current_value with _ | cur <;> rw [hc] at h
    · simp at h
    · obtain rfl := emit_some_if_changed_eq h
      split
      · exact Or.inl rfl
      · exact Or.inr rfl

/-- State frame of `pep_up_discrete_increment`: only `increment_counter`
can change. -/
theorem pep_up_discrete_increment_snd (m : Mode) (i : ℤ) :
    ∃ k, (m.pep_up_discrete_increment i).2 =
      { m with increment_counter := k } := by
  unfold Mode.pep_up_discrete_increment
  dsimp only []
  split
  · exact ⟨m.increment_counter, rfl⟩
  · split
    · exact ⟨_, rfl⟩
    · exact ⟨_, rfl⟩

/-- State frame of `convert_to_discrete_increment`: only
`increment_counter` can change. -/
theorem convert_to_discrete_increment_snd (m : Mode) (cv : ℚ) :
    ∃ k, (m.convert_to_discrete_increment cv).2 =
      { m with increment_counter := k } := by
  unfold Mode.convert_to_discrete_increment
  dsimp only []
  split
  · exact ⟨m.increment_counter, rfl⟩
  · split
    · exact ⟨_, rfl⟩
    · exact ⟨_, rfl⟩

/-- Every value emitted by the post-gate absolute-Normal pipeline is in the
target interval up to an applicable grid snap. -/
theorem absolute_normal_after_gate_mem (m : Mode) (cv : ℚ) (t : Target)
    (hm : m.Valid) (ht : t.Valid) (v : ℚ)
    (h : m.absolute_normal_after_gate cv t = some v) :
    m.InTargetUpToSnap t v := by
  obtain ⟨-, hiv, -, -, -⟩ := hm
  unfold Mode.absolute_normal_after_gate at h
  rcases hsb : m.source_bound_value cv with _ | ⟨b, mibh⟩ <;>
    rw [hsb] at h
  · exact absurd h (by simp)
  · dsimp only [] at h
    rcases hitting_emits_cases m _ _ _ v h with hv | ⟨cur, inc, hv⟩
    · subst hv
      obtain ⟨g, hg, hgor, hbd⟩ := pep_up_control_value_mem m b
        t.control_type t.current_value mibh hiv
        (Target.valid_grid_nonneg t ht)
      exact ⟨g, hg, hgor.imp id Or.inr, hbd⟩
    · subst hv
      have hmem := addClamping_mem cur inc m.target_value_interval hiv.2.1
      refine ⟨0, le_refl 0, Or.inl rfl, ?_, ?_⟩
      · rw [snapToGrid_zero_of_mem hiv.1 (le_trans hiv.2.1 hiv.2.2)]
        exact hmem.1
      · rw [snapToGrid_zero_of_mem (le_trans hiv.1 hiv.2.1) hiv.2.2]
        exact hmem.2

/-- Every absolute value emitted by `control_relative` is in the target
interval up to an applicable grid snap. -/
theorem control_relative_abs_mem (m : Mode) (i : ℤ) (t : Target)
    (hm : m.Valid) (ht : t.Valid) (v : ℚ)
    (h : (m.control_relative i t).1 = some (.Absolute v)) :
    m.InTargetUpToSnap t v := by
  obtain ⟨-, hiv, hss, -, -⟩ := hm
  unfold Mode.control_relative at h
  rcases hct : t.control_type with _ | g | g | _ | _ | _ | _ | _ <;>
    rw [hct] at h <;> dsimp only [] at h
  case AbsoluteContinuous | AbsoluteContinuousRoundable
    | AbsoluteTrigger | AbsoluteSwitch =>
    rcases hui : diToUnitIncrement (if m.reverse then -i else i)
        m.step_size_interval.lo with _ | u <;> rw [hui] at h
    · simp at h
    · dsimp only [] at h
      rcases hcv : t.current_value with _ | c <;> rw [hcv] at h
      · simp at h
      · dsimp only [] at h
        have hb := hit_target_emits_in_snapped_interval m _ _ c hiv
          hss.1 v h
        exact ⟨m.step_size_interval.lo, hss.1, Or.inr (Or.inl rfl), hb⟩
  case AbsoluteDiscrete =>
    have hg : 0 ≤ g := Target.valid_grid_nonneg t ht g (by rw [hct]; rfl)
    rcases hpep : m.pep_up_discrete_increment i with ⟨r, m'⟩
    rw [hpep] at h
    rcases r with _ | p
    · simp at h
    · dsimp only [] at h
      obtain ⟨k, hk⟩ := pep_up_discrete_increment_snd m i
      have hm' : m' = { m with increment_counter := k } := by
        rw [← hk, hpep]
      subst hm'
      have hb := hit_discrete_emits_in_snapped_interval
        { m with increment_counter := k } p g t.current_value hiv hg v h
      exact ⟨g, hg, Or.inr (Or.inr (by rw [hct]; rfl)), hb⟩
  case Relative | VirtualMulti =>
    rcases hpep : m.pep_up_discrete_increment i with ⟨r, m'⟩
    rw [hpep] at h
    rcases r with _ | p <;> simp at h
  case VirtualButton => simp at h

/-- Every absolute value emitted by the post-gate incremental-buttons
pipeline is in the target interval up to an applicable grid snap. -/
theorem incremental_buttons_abs_mem (m : Mode) (cv : ℚ) (t : Target)
    (hm : m.Valid) (ht : t.Valid) (v : ℚ)
    (h : (m.incremental_buttons_after_gate cv t).1 = some (.Absolute v)) :
    m.InTargetUpToSnap t v := by
  obtain ⟨-, hiv, hss, -, -⟩ := hm
  unfold Mode.incremental_buttons_after_gate at h
  split at h
  · simp at h
  · rcases hct : t.control_type with _ | g | g | _ | _ | _ | _ | _ <;>
      rw [hct] at h <;> dsimp only [] at h
    case AbsoluteContinuous | AbsoluteContinuousRoundable
      | AbsoluteTrigger | AbsoluteSwitch =>
      rcases hui : uvToIncrement
          (mapFromUnitIntervalTo
            (mapToUnitIntervalFrom cv m.source_value_interval .PreferOne)
            m.step_size_interval) m.reverse with _ | u <;> rw [hui] at h
      · simp at h
      · dsimp only [] at h
        rcases hcv : t.current_value with _ | c <;> rw [hcv] at h
        · simp at h
        · dsimp only [] at h
          have hb := hit_target_emits_in_snapped_interval m _ _ c hiv
            hss.1 v h
          exact ⟨m.step_size_interval.lo, hss.1, Or.inr (Or.inl rfl), hb⟩
    case AbsoluteDiscrete =>
      have hg : 0 ≤ g := Target.valid_grid_nonneg t ht g (by rw [hct]; rfl)
      rcases hconv : m.convert_to_discrete_increment cv with ⟨r, m'⟩
      rw [hconv] at h
      rcases r with _ | p
      · simp at h
      · dsimp only [] at h
        obtain ⟨k, hk⟩ := convert_to_discrete_increment_snd m cv
        have hm' : m' = { m with increment_counter := k } := by
          rw [← hk, hconv]
        subst hm'
        have hb := hit_discrete_emits_in_snapped_interval
          { m with increment_counter := k } p g t.current_value hiv hg v h
        exact ⟨g, hg, Or.inr (Or.inr (by rw [hct]; rfl)), hb⟩
    case Relative | VirtualMulti =>
      rcases hconv : m.convert_to_discrete_increment cv with ⟨r, m'⟩
      rw [hconv] at h
      rcases r with _ | p <;> simp at h
    case VirtualButton => simp at h

/-- Every value emitted by `feedback` lies inside the source interval. -/
theorem feedback_mem (m : Mode) (hs : m.source_value_interval.Valid)
    (x v : ℚ) (h : m.feedback x = some v) :
    m.source_value_interval.contains v := by
  have hlh : m.source_value_interval.lo ≤ m.source_value_interval.hi :=
    hs.2.1
  unfold Mode.feedback at h
  split at h
  · rcases hb : m.out_of_range_behavior <;> rw [hb] at h <;>
      dsimp only [] at h
    case MinOrMax =>
      split at h <;> simp only [Option.some.injEq] at h <;> subst h
      · exact ⟨le_refl _, hlh⟩
      · exact ⟨hlh, le_refl _⟩
    case Min =>
      simp only [Option.some.injEq] at h
      subst h
      exact clampTo_mem _ hlh _
    case Ignore => exact absurd h (by simp)
  · simp only [Option.some.injEq] at h
    subst h
    exact clampTo_mem _ hlh _

/-- Claim C1: for every valid Mode configuration and every input, each
absolute value emitted by `control` lies inside `target_value_interval` up
to grid snapping of the interval bounds when a grid applies, and each
value emitted by `feedback` lies inside `source_value_interval`. -/
theorem claim_C1 (m : Mode) (t : Target) (hm : m.Valid) (ht : t.Valid) :
    (∀ cv now v, (m.control cv t now).1 = some (.Absolute v) →
      m.InTargetUpToSnap t v) ∧
    (∀ x v, m.feedback x = some v →
      m.source_value_interval.contains v) := by
  constructor
  · intro cv now v h
    unfold Mode.control at h
    rcases cv with x | i
    case Relative => exact control_relative_abs_mem m i t hm ht v h
    case Absolute =>
      rcases ham : m.absolute_mode <;> rw [ham] at h <;> dsimp only [] at h
      case Normal =>
        rcases hcn : m.control_absolute_normal x t now with ⟨r, mr⟩
        rw [hcn] at h
        dsimp only [] at h
        rcases r with _ | w
        · simp at h
        · simp only [Option.map_some', Option.some.injEq,
            ControlValue.Absolute.injEq] at h
          subst h
          unfold Mode.control_absolute_normal at hcn
          rcases hpd : m.press_duration_processor.process x now with ⟨gated, p⟩
          rw [hpd] at hcn
          dsimp only [] at hcn
          rcases gated with _ | u
          · simp at hcn
          · simp only [Prod.mk.injEq] at hcn
            exact absolute_normal_after_gate_mem
              { m with press_duration_processor := p } u t hm ht w hcn.1
      case IncrementalButtons =>
        unfold Mode.control_absolute_incremental_buttons at h
        rcases hpd : m.press_duration_processor.process x now with ⟨gated, p⟩
        rw [hpd] at h
        dsimp only [] at h
        rcases gated with _ | u
        · simp at h
        · exact incremental_buttons_abs_mem
            { m with press_duration_processor := p } u t hm ht v h
      case ToggleButtons =>
        rcases hcn : m.control_absolute_toggle_buttons x t now with ⟨r, mr⟩
        rw [hcn] at h
        dsimp only [] at h
        rcases r with _ | w
        · simp at h
        · simp only [Option.map_some', Option.some.injEq,
            ControlValue.Absolute.injEq] at h
          subst h
          unfold Mode.control_absolute_toggle_buttons at hcn
          rcases hpd : m.press_duration_processor.process x now with ⟨gated, p⟩
          rw [hpd] at hcn
          dsimp only [] at hcn
          rcases gated with _ | u
          · simp at hcn
          · simp only [Prod.mk.injEq] at hcn
            obtain ⟨h1, h2, h3⟩ := hm.2.1
            have hb := toggle_emits_bound _ u t w hcn.1
            dsimp only [] at hb
            have hzlo := snapToGrid_zero_of_mem h1 (le_trans h2 h3)
            have hzhi := snapToGrid_zero_of_mem (le_trans h1 h2) h3
            rcases hb with hw | hw <;> subst hw <;>
              refine ⟨0, le_refl 0, Or.inl rfl, ?_, ?_⟩
            · rw [hzlo]
            · rw [hzhi]; exact h2
            · rw [hzlo]; exact h2
            · rw [hzhi]
  · intro x v h
    exact feedback_mem m hm.1 x v h

instance (iv : UInterval) : Decidable iv.Valid := by
  unfold UInterval.Valid; infer_instance

instance (iv : DInterval) : Decidable iv.Valid := by
  unfold DInterval.Valid; infer_instance

instance (m : Mode) : Decidable m.Valid := by
  unfold Mode.Valid; infer_instance

/-- Witness for claim C1 at the default Mode and a continuous target. -/
theorem claim_C1_witness :
    Mode.default.Valid ∧ (Target.mk (some (1/2)) .AbsoluteContinuous).Valid ∧
    ((∀ cv now v,
      (Mode.default.control cv (Target.mk (some (1/2)) .AbsoluteContinuous)
        now).1 = some (.Absolute v) →
      Mode.default.InTargetUpToSnap
        (Target.mk (some (1/2)) .AbsoluteContinuous) v) ∧
    (∀ x v, Mode.default.feedback x = some v →
      Mode.default.source_value_interval.contains v)) := by
  have h1 : Mode.default.Valid := by
    refine ⟨⟨?_, ?_, ?_⟩, ⟨?_, ?_, ?_⟩, ⟨?_, ?_, ?_⟩, ⟨?_, ?_, ?_⟩,
      ?_, ?_, ?_⟩ <;> norm_num [Mode.default]
  have h2 : (Target.mk (some (1/2)) .AbsoluteContinuous).Valid := trivial
  exact ⟨h1, h2, claim_C1 Mode.default _ h1 h2⟩

/-! ### Frame condition (claim C8) -/

/-- Equality of all Mode fields except `increment_counter` and
`press_duration_processor`. -/
def Mode.SameConfig (a b : Mode) : Prop :=
  a.absolute_mode = b.absolute_mode ∧
  a.source_value_interval = b.source_value_interval ∧
  a.target_value_interval = b.target_value_interval ∧
  a.step_count_interval = b.step_count_interval ∧
  a.step_size_interval = b.step_size_interval ∧
  a.jump_interval = b.jump_interval ∧
  a.approach_target_value = b.approach_target_value ∧
  a.reverse = b.reverse ∧
  a.rotate = b.rotate ∧
  a.round_target_value = b.round_target_value ∧
  a.out_of_range_behavior = b.out_of_range_behavior ∧
  a.control_transformation = b.control_transformation ∧
  a.feedback_transformation = b.feedback_transformation

theorem control_relative_snd (m : Mode) (i : ℤ) (t : Target) :
    ∃ k, (m.control_relative i t).2 =
      { m with increment_counter := k } := by
  unfold Mode.control_relative
  rcases t.control_type with _ | g | g | _ | _ | _ | _ | _ <;> dsimp only []
  case AbsoluteContinuous | AbsoluteContinuousRoundable
    | AbsoluteTrigger | AbsoluteSwitch =>
    all_goals
      rcases diToUnitIncrement (if m.reverse then -i else i)
          m.step_size_interval.lo with _ | u <;> dsimp only []
      · exact ⟨m.increment_counter, rfl⟩
      · rcases t.current_value with _ | c <;> dsimp only [] <;>
          exact ⟨m.increment_counter, rfl⟩
  case AbsoluteDiscrete | Relative | VirtualMulti =>
    all_goals
      obtain ⟨k, hk⟩ := pep_up_discrete_increment_snd m i
      rcases hpep : m.pep_up_discrete_increment i with ⟨r, m'⟩
      rw [hpep] at hk
      rcases r with _ | p <;> dsimp only [] <;> exact ⟨k, hk⟩
  case VirtualButton => exact ⟨m.increment_counter, rfl⟩

theorem incremental_buttons_after_gate_snd (m : Mode) (cv : ℚ)
    (t : Target) :
    ∃ k, (m.incremental_buttons_after_gate cv t).2 =
      { m with increment_counter := k } := by
  unfold Mode.incremental_buttons_after_gate
  split
  · exact ⟨m.increment_counter, rfl⟩
  · rcases t.control_type with _ | g | g | _ | _ | _ | _ | _ <;>
      dsimp only []
    case AbsoluteContinuous | AbsoluteContinuousRoundable
      | AbsoluteTrigger | AbsoluteSwitch =>
      all_goals
        rcases uvToIncrement
            (mapFromUnitIntervalTo
              (mapToUnitIntervalFrom cv m.source_value_interval .PreferOne)
              m.step_size_interval) m.reverse with _ | u <;> dsimp only []
        · exact ⟨m.increment_counter, rfl⟩
        · rcases t.current_value with _ | c <;> dsimp only [] <;>
            exact ⟨m.increment_counter, rfl⟩
    case AbsoluteDiscrete | Relative | VirtualMulti =>
      all_goals
        obtain ⟨k, hk⟩ := convert_to_discrete_increment_snd m cv
        rcases hconv : m.convert_to_discrete_increment cv with ⟨r, m'⟩
        rw [hconv] at hk
        rcases r with _ | p <;> dsimp only [] <;> exact ⟨k, hk⟩
    case VirtualButton => exact ⟨m.increment_counter, rfl⟩

theorem control_absolute_normal_snd (m : Mode) (x : ℚ) (t : Target)
    (now : ℕ) :
    ∃ p, (m.control_absolute_normal x t now).2 =
      { m with press_duration_processor := p } := by
  unfold Mode.control_absolute_normal
  rcases m.press_duration_processor.process x now with ⟨gated, p⟩
  dsimp only []
  rcases gated with _ | u <;> dsimp only [] <;> exact ⟨p, rfl⟩

theorem control_absolute_toggle_buttons_snd (m : Mode) (x : ℚ) (t : Target)
    (now : ℕ) :
    ∃ p, (m.control_absolute_toggle_buttons x t now).2 =
      { m with press_duration_processor := p } := by
  unfold Mode.control_absolute_toggle_buttons
  rcases m.press_duration_processor.process x now with ⟨gated, p⟩
  dsimp only []
  rcases gated with _ | u <;> dsimp only [] <;> exact ⟨p, rfl⟩

theorem control_absolute_incremental_buttons_snd (m : Mode) (x : ℚ)
    (t : Target) (now : ℕ) :
    ∃ k p, (m.control_absolute_incremental_buttons x t now).2 =
      { m with increment_counter := k, press_duration_processor := p } := by
  unfold Mode.control_absolute_incremental_buttons
  rcases m.press_duration_processor.process x now with ⟨gated, p⟩
  dsimp only []
  rcases gated with _ | u <;> dsimp only []
  · exact ⟨m.increment_counter, p, rfl⟩
  · obtain ⟨k, hk⟩ := incremental_buttons_after_gate_snd
      { m with press_duration_processor := p } u t
    exact ⟨k, p, hk⟩

theorem sameConfig_update (m : Mode) (k : ℤ) (p : PressDurationProcessor) :
    (({ m with
        increment_counter := k
        press_duration_processor := p } : Mode)).SameConfig m :=
  ⟨rfl, rfl, rfl, rfl, rfl, rfl, rfl, rfl, rfl, rfl, rfl, rfl, rfl⟩

/-- Claim C8: a call to `control` changes no Mode field other than
`increment_counter` and the press-duration processor; in particular
`absolute_mode`, the five intervals, `reverse`, `rotate`,
`round_target_value`, `approach_target_value`, `out_of_range_behavior` and
both transformations are unchanged by event processing. -/
theorem claim_C8 (m : Mode) (cv : ControlValue) (t : Target) (now : ℕ) :
    ((m.control cv t now).2).SameConfig m := by
  unfold Mode.control
  rcases cv with x | i
  case Relative =>
    obtain ⟨k, hk⟩ := control_relative_snd m i t
    rw [hk]
    exact sameConfig_update m k m.press_duration_processor
  case Absolute =>
    rcases ham : m.absolute_mode <;> dsimp only []
    case Normal =>
      rcases hcn : m.control_absolute_normal x t now with ⟨r, mr⟩
      obtain ⟨p, hp⟩ := control_absolute_normal_snd m x t now
      rw [hcn] at hp
      dsimp only [] at hp ⊢
      rw [hp]
      exact sameConfig_update m m.increment_counter p
    case IncrementalButtons =>
      rcases hcn : m.control_absolute_incremental_buttons x t now with ⟨r, mr⟩
      obtain ⟨k, p, hp⟩ := control_absolute_incremental_buttons_snd m x t now
      rw [hcn] at hp
      dsimp only [] at hp ⊢
      rw [hp]
      exact sameConfig_update m k p
    case ToggleButtons =>
      rcases hcn : m.control_absolute_toggle_buttons x t now with ⟨r, mr⟩
      obtain ⟨p, hp⟩ := control_absolute_toggle_buttons_snd m x t now
      rw [hcn] at hp
      dsimp only [] at hp ⊢
      rw [hp]
      exact sameConfig_update m m.increment_counter p

/-! ### Sign behavior of the discrete pep-up (claim C10) -/

theorem withDirection_spec (a i : ℤ) (ha : a ≠ 0) (hi : i ≠ 0) :
    withDirection a (Int.sign i) ≠ 0 ∧
      Int.sign (withDirection a (Int.sign i)) = Int.sign i := by
  have hna : 0 < (a.natAbs : ℤ) := by
    have := Int.natAbs_pos.mpr ha
    exact_mod_cast this
  unfold withDirection
  rcases lt_trichotomy i 0 with hneg | hzero | hpos
  · have hs : Int.sign i = -1 := Int.sign_eq_neg_one_of_neg hneg
    rw [hs, if_pos (by norm_num : (-1 : ℤ) < 0)]
    exact ⟨by omega, Int.sign_eq_neg_one_of_neg (by omega)⟩
  · exact absurd hzero hi
  · have hs : Int.sign i = 1 := Int.sign_eq_one_of_pos hpos
    rw [hs, if_neg (by norm_num : ¬((1 : ℤ) < 0))]
    exact ⟨by omega, Int.sign_eq_one_of_pos hna⟩

theorem diClampToInterval_ne_zero (i : ℤ) (iv : DInterval) (hi : i ≠ 0)
    (hv : iv.Valid) : diClampToInterval i iv ≠ 0 := by
  obtain ⟨hle, hlo, hhi⟩ := hv
  have h1 : 1 ≤ (i.natAbs : ℤ) := by
    have := Int.natAbs_pos.mpr hi
    exact_mod_cast this
  unfold diClampToInterval
  dsimp only []
  split
  · rcases min_cases (iv.lo + (i.natAbs : ℤ) - 1 + 1) iv.hi with
      ⟨he, -⟩ | ⟨he, -⟩ <;> rw [he] <;> omega
  · rename_i hcond
    rw [not_and_or, not_lt, not_le] at hcond
    rcases min_cases (iv.lo + (i.natAbs : ℤ) - 1) iv.hi with
      ⟨he, -⟩ | ⟨he, -⟩ <;> rw [he] <;> omega

/-- Claim C10: whenever `pep_up_discrete_increment` returns an increment,
it is non-zero, its sign equals the input's sign when `reverse` is off and
the opposite sign when `reverse` is on — clamping into
`step_count_interval` never flips the emitted direction away from the raw
input's direction. -/
theorem claim_C10 (m : Mode) (i : ℤ) (hi : i ≠ 0) (r : ℤ)
    (h : (m.pep_up_discrete_increment i).1 = some r) :
    r ≠ 0 ∧ (m.reverse = false → Int.sign r = Int.sign i) ∧
      (m.reverse = true → Int.sign r = -Int.sign i) := by
  unfold Mode.pep_up_discrete_increment at h
  dsimp only [] at h
  split at h
  · rename_i hpos
    dsimp only [] at h
    simp only [Option.some.injEq] at h
    subst h
    obtain ⟨hw0, hws⟩ := withDirection_spec
      (diClampToInterval i m.step_count_interval) i (by omega) hi
    rcases hrev : m.reverse <;> simp only [hrev, if_true, if_false,
      Bool.false_eq_true, ite_false, ite_true]
    · exact ⟨hw0, fun _ => hws, fun hc => absurd hc (by simp)⟩
    · refine ⟨neg_ne_zero.mpr hw0, fun hc => absurd hc (by simp),
        fun _ => ?_⟩
      rw [Int.sign_neg, hws]
  · split at h
    · dsimp only [] at h
      simp only [Option.some.injEq] at h
      subst h
      obtain ⟨hw0, hws⟩ := withDirection_spec 1 i one_ne_zero hi
      rcases hrev : m.reverse <;> simp only [hrev, if_true, if_false,
        Bool.false_eq_true, ite_false, ite_true]
      · exact ⟨hw0, fun _ => hws, fun hc => absurd hc (by simp)⟩
      · refine ⟨neg_ne_zero.mpr hw0, fun hc => absurd hc (by simp),
          fun _ => ?_⟩
        rw [Int.sign_neg, hws]
    · exact absurd h (by simp)

/-- Witness for claim C10: with the default step-count interval [1, 1] and
input +5, the result is +1. -/
theorem claim_C10_witness :
    (5 : ℤ) ≠ 0 ∧
    (Mode.default.pep_up_discrete_increment 5).1 = some 1 ∧
    ((1 : ℤ) ≠ 0 ∧
      (Mode.default.reverse = false → Int.sign 1 = Int.sign 5) ∧
      (Mode.default.reverse = true → Int.sign 1 = -Int.sign 5)) := by
  refine ⟨by decide, by decide, ?_⟩
  exact claim_C10 Mode.default 5 (by decide) 1 (by decide)

/-! ### Shape of the Target view (claim C9) -/

/-- Claim C9: the Target view exposes an optional current value and a
control type, and `ControlType` consists of exactly the eight variants
`AbsoluteContinuous`, `AbsoluteContinuousRoundable`, `AbsoluteDiscrete`,
`AbsoluteTrigger`, `AbsoluteSwitch`, `Relative`, `VirtualMulti` and
`VirtualButton`, pairwise distinct. -/
theorem claim_C9 :
    (∀ t : Target, t.current_value = none ∨
      ∃ v : ℚ, t.current_value = some v) ∧
    (∀ t : Target, ∃ ct : ControlType, t.control_type = ct) ∧
    (∀ ct : ControlType,
      ct = .AbsoluteContinuous ∨
      (∃ g, ct = .AbsoluteContinuousRoundable g) ∨
      (∃ g, ct = .AbsoluteDiscrete g) ∨
      ct = .AbsoluteTrigger ∨ ct = .AbsoluteSwitch ∨
      ct = .Relative ∨ ct = .VirtualMulti ∨ ct = .VirtualButton) ∧
    ([ControlType.AbsoluteContinuous, .AbsoluteTrigger, .AbsoluteSwitch,
      .Relative, .VirtualMulti, .VirtualButton].Pairwise (· ≠ ·) ∧
      ∀ g : ℚ, ControlType.AbsoluteContinuousRoundable g ≠
        .AbsoluteDiscrete g) := by
  refine ⟨?_, ?_, ?_, by decide, ?_⟩
  · intro t
    rcases h : t.current_value with _ | v
    · exact Or.inl rfl
    · exact Or.inr ⟨v, rfl⟩
  · intro t
    exact ⟨t.control_type, rfl⟩
  · intro ct
    rcases ct with _ | g | g | _ | _ | _ | _ | _
    · exact Or.inl rfl
    · exact Or.inr (Or.inl ⟨g, rfl⟩)
    · exact Or.inr (Or.inr (Or.inl ⟨g, rfl⟩))
    · exact Or.inr (Or.inr (Or.inr (Or.inl rfl)))
    · exact Or.inr (Or.inr (Or.inr (Or.inr (Or.inl rfl))))
    · exact Or.inr (Or.inr (Or.inr (Or.inr (Or.inr (Or.inl rfl)))))
    · exact Or.inr (Or.inr (Or.inr (Or.inr (Or.inr (Or.inr
        (Or.inl rfl))))))
    · exact Or.inr (Or.inr (Or.inr (Or.inr (Or.inr (Or.inr
        (Or.inr rfl))))))
  · intro g h
    exact absurd h (by simp)

/-! ### Out-of-range handling in absolute Normal mode (claim C4) -/

/-- Identity behavior of the default press-duration configuration. -/
theorem pdp_default_process (v : ℚ) (now : ℕ) :
    PressDurationProcessor.default.process v now =
      (some v, .default) := rfl

/-- Post-projection tail of the absolute-Normal pipeline: pep-up followed
by the jump filter, as run on a source-bound value `b` with the
`MinIsMaxBehavior` chosen by the projection. -/
def Mode.normal_tail (m : Mode) (b : ℚ) (mibh : MinIsMaxBehavior)
    (t : Target) : Option ℚ :=
  m.hitting_target_considering_max_jump
    (m.pep_up_control_value b t.control_type t.current_value mibh)
    t.current_value t.control_type

/-- Claim C4: in absolute Normal mode (with the press-duration gate in its
default pass-through configuration), an input outside
`source_value_interval` is resolved by `out_of_range_behavior`: `Ignore`
drops it, `Min` replaces it by the interval's low bound with `PreferZero`,
`MinOrMax` replaces it by the nearest bound (low bound with `PreferZero`,
high bound with `PreferOne`); an in-range input is used unchanged with
`PreferOne`. -/
theorem claim_C4 (m : Mode) (t : Target) (v : ℚ) (now : ℕ)
    (hmode : m.absolute_mode = .Normal)
    (hpdp : m.press_duration_processor = .default) :
    (¬m.source_value_interval.contains v →
      ((m.out_of_range_behavior = .Ignore →
        (m.control (.Absolute v) t now).1 = none) ∧
      (m.out_of_range_behavior = .Min →
        (m.control (.Absolute v) t now).1 =
          (m.normal_tail m.source_value_interval.lo .PreferZero t).map
            .Absolute) ∧
      (m.out_of_range_behavior = .MinOrMax →
        (m.control (.Absolute v) t now).1 =
          if v < m.source_value_interval.lo then
            (m.normal_tail m.source_value_interval.lo .PreferZero t).map
              .Absolute
          else
            (m.normal_tail m.source_value_interval.hi .PreferOne t).map
              .Absolute))) ∧
    (m.source_value_interval.contains v →
      (m.control (.Absolute v) t now).1 =
        (m.normal_tail v .PreferOne t).map .Absolute) := by
  have hred : (m.control (.Absolute v) t now).1 =
      (m.absolute_normal_after_gate v t).map .Absolute := by
    unfold Mode.control
    rw [hmode]
    dsimp only []
    unfold Mode.control_absolute_normal
    rw [hpdp, pdp_default_process]
    dsimp only []
    rw [← hpdp]
  rw [hred]
  unfold Mode.absolute_normal_after_gate Mode.source_bound_value
    Mode.normal_tail
  constructor
  · intro hout
    rw [if_neg hout]
    refine ⟨fun hb => ?_, fun hb => ?_, fun hb => ?_⟩
    · rw [hb]
      rfl
    · rw [hb]
    · rw [hb]
      by_cases hv : v < m.source_value_interval.lo
      · simp only [if_pos hv]
      · simp only [if_neg hv]
  · intro hin
    rw [if_pos hin]

/-- Witness for claim C4 at the default Mode. -/
theorem claim_C4_witness :
    Mode.default.absolute_mode = .Normal ∧
    Mode.default.press_duration_processor = .default ∧
    ((¬Mode.default.source_value_interval.contains (1/2) →
      ((Mode.default.out_of_range_behavior = .Ignore →
        (Mode.default.control (.Absolute (1/2))
          (Target.mk (some (777/1000)) .AbsoluteContinuous) 0).1 = none) ∧
      (Mode.default.out_of_range_behavior = .Min →
        (Mode.default.control (.Absolute (1/2))
          (Target.mk (some (777/1000)) .AbsoluteContinuous) 0).1 =
          (Mode.default.normal_tail Mode.default.source_value_interval.lo
            .PreferZero
            (Target.mk (some (777/1000)) .AbsoluteContinuous)).map
              .Absolute) ∧
      (Mode.default.out_of_range_behavior = .MinOrMax →
        (Mode.default.control (.Absolute (1/2))
          (Target.mk (some (777/1000)) .AbsoluteContinuous) 0).1 =
          if (1:ℚ)/2 < Mode.default.source_value_interval.lo then
            (Mode.default.normal_tail Mode.default.source_value_interval.lo
              .PreferZero
              (Target.mk (some (777/1000)) .AbsoluteContinuous)).map
                .Absolute
          else
            (Mode.default.normal_tail Mode.default.source_value_interval.hi
              .PreferOne
              (Target.mk (some (777/1000)) .AbsoluteContinuous)).map
                .Absolute))) ∧
    (Mode.default.source_value_interval.contains (1/2) →
      (Mode.default.control (.Absolute (1/2))
        (Target.mk (some (777/1000)) .AbsoluteContinuous) 0).1 =
        (Mode.default.normal_tail (1/2) .PreferOne
          (Target.mk (some (777/1000)) .AbsoluteContinuous)).map
            .Absolute)) :=
  ⟨rfl, rfl, claim_C4 Mode.default
    (Target.mk (some (777/1000)) .AbsoluteContinuous) (1/2) 0 rfl rfl⟩

/-! ### Toggle-buttons behavior (claim C5) -/

/-- Claim C5: in ToggleButtons mode (with the press-duration gate in its
default pass-through configuration), a zero input produces no output and a
missing current target value produces no output; otherwise the desired
value is the target interval's min if the current value exceeds the
interval's center and its max otherwise, and it is emitted iff it differs
from the current value. -/
theorem claim_C5 (m : Mode) (t : Target) (v : ℚ) (now : ℕ)
    (hmode : m.absolute_mode = .ToggleButtons)
    (hpdp : m.press_duration_processor = .default) :
    (v = 0 → (m.control (.Absolute v) t now).1 = none) ∧
    (t.current_value = none → (m.control (.Absolute v) t now).1 = none) ∧
    (∀ c, t.current_value = some c → v ≠ 0 →
      (m.control (.Absolute v) t now).1 =
        (if (if c > m.target_value_interval.center then
            m.target_value_interval.lo else m.target_value_interval.hi) = c
        then none
        else some (.Absolute (if c > m.target_value_interval.center then
          m.target_value_interval.lo else m.target_value_interval.hi)))) := by
  have hred : (m.control (.Absolute v) t now).1 =
      (m.toggle_buttons_after_gate v t).map .Absolute := by
    unfold Mode.control
    rw [hmode]
    dsimp only []
    unfold Mode.control_absolute_toggle_buttons
    rw [hpdp, pdp_default_process]
    dsimp only []
    rw [← hpdp]
  rw [hred]
  unfold Mode.toggle_buttons_after_gate
  refine ⟨fun hz => ?_, fun hc => ?_, fun c hc hnz => ?_⟩
  · rw [if_pos hz]
    rfl
  · rw [hc]
    split <;> rfl
  · rw [if_neg hnz, hc]
    dsimp only []
    split <;> split <;> rfl

/-- Toggle-mode example configuration used by the C5 witness (the S6
scenario: target interval [3/10, 7/10]). -/
def toggleExample : Mode :=
  { Mode.default with
    absolute_mode := .ToggleButtons
    target_value_interval := ⟨3/10, 7/10⟩ }

/-- Witness for claim C5 on `toggleExample` with current value 2/5: input
1/10 toggles to 7/10. -/
theorem claim_C5_witness :
    toggleExample.absolute_mode = .ToggleButtons ∧
    toggleExample.press_duration_processor = .default ∧
    (((1:ℚ)/10 = 0 →
      (toggleExample.control (.Absolute (1/10))
        (Target.mk (some (2/5)) .AbsoluteContinuous) 0).1 = none) ∧
    ((Target.mk (some (2/5)) .AbsoluteContinuous).current_value = none →
      (toggleExample.control (.Absolute (1/10))
        (Target.mk (some (2/5)) .AbsoluteContinuous) 0).1 = none) ∧
    (∀ c, (Target.mk (some (2/5)) .AbsoluteContinuous).current_value =
        some c → (1:ℚ)/10 ≠ 0 →
      (toggleExample.control (.Absolute (1/10))
        (Target.mk (some (2/5)) .AbsoluteContinuous) 0).1 =
        (if (if c > toggleExample.target_value_interval.center then
            toggleExample.target_value_interval.lo
          else toggleExample.target_value_interval.hi) = c
        then none
        else some (.Absolute
          (if c > toggleExample.target_value_interval.center then
            toggleExample.target_value_interval.lo
          else toggleExample.target_value_interval.hi))))) :=
  ⟨rfl, rfl, claim_C5 toggleExample
    (Target.mk (some (2/5)) .AbsoluteContinuous) (1/10) 0 rfl rfl⟩

/-! ### Relative control on continuous targets (claim C6) -/

/-- Step-size example configuration used by the C6 witness (the S4
scenario: step size interval [1/5, 1]). -/
def stepSizeExample : Mode :=
  { Mode.default with step_size_interval := ⟨1/5, 1⟩ }

/-- Claim C6: for a Relative control value on a continuous-like target,
the increment is inverted when `reverse` is set, converted to a unit
increment via `step_size_interval`'s min (no output on zero), clamped into
`step_size_interval` and added to the current target value via the hitting
helper; concretely, with step size [1/5, 1] and current value 0, Rel(−10)
and Rel(−1) produce nothing, Rel(+1) → 1/5, Rel(+2) → 2/5,
Rel(+10) → 1. -/
theorem claim_C6 (m : Mode) (t : Target) (i : ℤ) (now : ℕ)
    (hct : t.control_type = .AbsoluteContinuous ∨
      t.control_type = .AbsoluteTrigger ∨
      t.control_type = .AbsoluteSwitch ∨
      ∃ g, t.control_type = .AbsoluteContinuousRoundable g) :
    ((m.control (.Relative i) t now).1 =
      match diToUnitIncrement (if m.reverse then -i else i)
        m.step_size_interval.lo with
      | none => none
      | some u =>
        match t.current_value with
        | none => none
        | some c =>
          m.hit_target_absolutely_with_unit_increment
            (uiClampToInterval u m.step_size_interval)
            m.step_size_interval.lo c) ∧
    ((stepSizeExample.control (.Relative (-10))
        (Target.mk (some 0) .AbsoluteContinuous) 0).1 = none ∧
      (stepSizeExample.control (.Relative (-1))
        (Target.mk (some 0) .AbsoluteContinuous) 0).1 = none ∧
      (stepSizeExample.control (.Relative 1)
        (Target.mk (some 0) .AbsoluteContinuous) 0).1 =
          some (.Absolute (1/5)) ∧
      (stepSizeExample.control (.Relative 2)
        (Target.mk (some 0) .AbsoluteContinuous) 0).1 =
          some (.Absolute (2/5)) ∧
      (stepSizeExample.control (.Relative 10)
        (Target.mk (some 0) .AbsoluteContinuous) 0).1 =
          some (.Absolute 1)) := by
  constructor
  · unfold Mode.control Mode.control_relative
    have hstep : ∀ hcteq : t.control_type = ControlType.AbsoluteContinuous
        ∨ True, True := fun _ => trivial
    rcases hct with h | h | h | ⟨g, h⟩ <;> rw [h] <;> dsimp only [] <;>
      (rcases diToUnitIncrement (if m.reverse then -i else i)
          m.step_size_interval.lo with _ | u <;> dsimp only []) <;>
      try rfl
    all_goals
      rcases t.current_value with _ | c <;> rfl
  · refine ⟨?_, ?_, ?_, ?_, ?_⟩ <;>
      norm_num [stepSizeExample, Mode.default, Mode.control,
        Mode.control_relative, diToUnitIncrement, uiClampToInterval,
        clampTo, Mode.hit_target_absolutely_with_unit_increment,
        snapToGrid, addClamping, addRotating, UInterval.contains,
        clamp01, round_eq, min_def, max_def, abs]

/-- Witness for claim C6 at `stepSizeExample`, increment +1, a continuous
target with current value 0. -/
theorem claim_C6_witness :
    ((Target.mk (some 0) ControlType.AbsoluteContinuous).control_type =
        .AbsoluteContinuous ∨
      (Target.mk (some 0) ControlType.AbsoluteContinuous).control_type =
        .AbsoluteTrigger ∨
      (Target.mk (some 0) ControlType.AbsoluteContinuous).control_type =
        .AbsoluteSwitch ∨
      ∃ g, (Target.mk (some 0) ControlType.AbsoluteContinuous
        ).control_type = .AbsoluteContinuousRoundable g) ∧
    (((stepSizeExample.control (.Relative 1)
        (Target.mk (some 0) .AbsoluteContinuous) 0).1 =
      match diToUnitIncrement
        (if stepSizeExample.reverse then -1 else 1)
        stepSizeExample.step_size_interval.lo with
      | none => none
      | some u =>
        match (Target.mk (some 0)
            ControlType.AbsoluteContinuous).current_value with
        | none => none
        | some c =>
          stepSizeExample.hit_target_absolutely_with_unit_increment
            (uiClampToInterval u stepSizeExample.step_size_interval)
            stepSizeExample.step_size_interval.lo c) ∧
    ((stepSizeExample.control (.Relative (-10))
        (Target.mk (some 0) .AbsoluteContinuous) 0).1 = none ∧
      (stepSizeExample.control (.Relative (-1))
        (Target.mk (some 0) .AbsoluteContinuous) 0).1 = none ∧
      (stepSizeExample.control (.Relative 1)
        (Target.mk (some 0) .AbsoluteContinuous) 0).1 =
          some (.Absolute (1/5)) ∧
      (stepSizeExample.control (.Relative 2)
        (Target.mk (some 0) .AbsoluteContinuous) 0).1 =
          some (.Absolute (2/5)) ∧
      (stepSizeExample.control (.Relative 10)
        (Target.mk (some 0) .AbsoluteContinuous) 0).1 =
          some (.Absolute 1))) :=
  ⟨Or.inl rfl, claim_C6 stepSizeExample
    (Target.mk (some 0) .AbsoluteContinuous) 1 0 (Or.inl rfl)⟩

/-! ### Transformation failure handling (claim C7) -/

/-- With an always-failing control transformation, the pep-up chain equals
the chain with no transformation configured. -/
theorem pep_up_control_value_failing (m : Mode) (tr : Transformation)
    (htr : m.control_transformation = some tr)
    (hfail : ∀ x y, tr x y = none) (cv : ℚ) (ct : ControlType)
    (c : Option ℚ) (b : MinIsMaxBehavior) :
    m.pep_up_control_value cv ct c b =
      ({ m with control_transformation := none } :
        Mode).pep_up_control_value cv ct c b := by
  unfold Mode.pep_up_control_value
  rw [htr]
  dsimp only []
  rw [hfail]
  rfl

/-- With an always-failing control transformation, the post-gate Normal
pipeline equals the pipeline with no transformation configured. -/
theorem absolute_normal_after_gate_failing (m : Mode) (tr : Transformation)
    (htr : m.control_transformation = some tr)
    (hfail : ∀ x y, tr x y = none) (v : ℚ) (t : Target) :
    m.absolute_normal_after_gate v t =
      ({ m with control_transformation := none } :
        Mode).absolute_normal_after_gate v t := by
  unfold Mode.absolute_normal_after_gate
  have hsb : ({ m with control_transformation := none } :
      Mode).source_bound_value v = m.source_bound_value v := rfl
  rw [hsb]
  rcases m.source_bound_value v with _ | ⟨b, mibh⟩
  · rfl
  · dsimp only []
    rw [← pep_up_control_value_failing m tr htr hfail b t.control_type
      t.current_value mibh]
    unfold Mode.hitting_target_considering_max_jump Mode.hit_if_changed
    dsimp only []

/-- Dropping the control transformation commutes with
`pep_up_discrete_increment` (which never reads it). -/
theorem pep_up_discrete_increment_ctfree (m : Mode) (j : ℤ) :
    (({ m with control_transformation := none } :
        Mode).pep_up_discrete_increment j) =
      ((m.pep_up_discrete_increment j).1,
        { (m.pep_up_discrete_increment j).2 with
            control_transformation := none }) := by
  unfold Mode.pep_up_discrete_increment Mode.its_time_to_fire
  dsimp only []
  split
  · rfl
  · split
    · rfl
    · split
      · rfl
      · split <;> rfl

/-- Dropping the control transformation commutes with
`convert_to_discrete_increment` (which never reads it). -/
theorem convert_to_discrete_increment_ctfree (m : Mode) (cv : ℚ) :
    (({ m with control_transformation := none } :
        Mode).convert_to_discrete_increment cv) =
      ((m.convert_to_discrete_increment cv).1,
        { (m.convert_to_discrete_increment cv).2 with
            control_transformation := none }) := by
  unfold Mode.convert_to_discrete_increment Mode.its_time_to_fire
  dsimp only []
  split
  · rfl
  · split
    · rfl
    · split
      · rfl
      · split <;> rfl

/-- Dropping the control transformation does not change the value produced
by `control_relative`. -/
theorem control_relative_fst_ctfree (m : Mode) (i : ℤ) (t : Target) :
    (m.control_relative i t).1 =
      ((({ m with control_transformation := none } :
        Mode).control_relative i t)).1 := by
  unfold Mode.control_relative
  rcases hct : t.control_type with _ | g | g | _ | _ | _ | _ | _ <;>
    dsimp only []
  case AbsoluteContinuous | AbsoluteContinuousRoundable
    | AbsoluteTrigger | AbsoluteSwitch =>
    all_goals
      rcases diToUnitIncrement (if m.reverse then -i else i)
          m.step_size_interval.lo with _ | u <;>
        rcases t.current_value with _ | c <;> rfl
  case AbsoluteDiscrete =>
    rw [pep_up_discrete_increment_ctfree m i]
    rcases hp : m.pep_up_discrete_increment i with ⟨r, m2⟩
    rcases r with _ | q <;> rfl
  case Relative | VirtualMulti =>
    all_goals
      rw [pep_up_discrete_increment_ctfree m i]
      rcases hp : m.pep_up_discrete_increment i with ⟨r, m2⟩
      rcases r with _ | q <;> rfl

/-- Dropping the control transformation does not change the value produced
by the post-gate incremental-buttons pipeline. -/
theorem incremental_after_gate_fst_ctfree (m : Mode) (u : ℚ) (t : Target) :
    (m.incremental_buttons_after_gate u t).1 =
      ((({ m with control_transformation := none } :
        Mode).incremental_buttons_after_gate u t)).1 := by
  unfold Mode.incremental_buttons_after_gate
  dsimp only []
  split
  · rfl
  · rcases hct : t.control_type with _ | g | g | _ | _ | _ | _ | _ <;>
      dsimp only []
    case AbsoluteContinuous | AbsoluteContinuousRoundable
      | AbsoluteTrigger | AbsoluteSwitch =>
      all_goals
        rcases uvToIncrement
            (mapFromUnitIntervalTo
              (mapToUnitIntervalFrom u m.source_value_interval .PreferOne)
              m.step_size_interval) m.reverse with _ | w <;>
          rcases t.current_value with _ | c <;> rfl
    case AbsoluteDiscrete =>
      rw [convert_to_discrete_increment_ctfree m u]
      rcases hp : m.convert_to_discrete_increment u with ⟨r, m2⟩
      rcases r with _ | q <;> rfl
    case Relative | VirtualMulti =>
      all_goals
        rw [convert_to_discrete_increment_ctfree m u]
        rcases hp : m.convert_to_discrete_increment u with ⟨r, m2⟩
        rcases r with _ | q <;> rfl

/-- Claim C7: if the user-supplied control transformation always returns
an error, `control` returns exactly the value it would return with no
transformation configured, for every input — the pipeline is never
aborted by the failure. -/
theorem claim_C7 (m : Mode) (t : Target) (tr : Transformation)
    (htr : m.control_transformation = some tr)
    (hfail : ∀ x y, tr x y = none) (cv : ControlValue) (now : ℕ) :
    (m.control cv t now).1 =
      (({ m with control_transformation := none } : Mode).control cv t
        now).1 := by
  unfold Mode.control
  rcases cv with x | i
  case Relative => exact control_relative_fst_ctfree m i t
  case Absolute =>
    rcases ham : m.absolute_mode <;> dsimp only [] <;> rw [← ham]
    case Normal =>
      unfold Mode.control_absolute_normal
      rcases m.press_duration_processor.process x now with ⟨gated, p⟩
      dsimp only []
      rcases gated with _ | u
      · rfl
      · dsimp only []
        rw [absolute_normal_after_gate_failing
          { m with press_duration_processor := p } tr htr hfail u t]
    case IncrementalButtons =>
      unfold Mode.control_absolute_incremental_buttons
      rcases m.press_duration_processor.process x now with ⟨gated, p⟩
      dsimp only []
      rcases gated with _ | u
      · rfl
      · dsimp only []
        exact incremental_after_gate_fst_ctfree
          { m with press_duration_processor := p } u t
    case ToggleButtons =>
      unfold Mode.control_absolute_toggle_buttons
        Mode.toggle_buttons_after_gate
      rcases m.press_duration_processor.process x now with ⟨gated, p⟩
      rcases gated with _ | u <;> rfl

/-- Always-failing transformation used by the C7 witness. -/
def failingTransformation : Transformation := fun _ _ => none

/-- Mode with an always-failing control transformation (C7 witness). -/
def failingExample : Mode :=
  { Mode.default with control_transformation := some failingTransformation }

/-- Witness for claim C7 at the default configuration with an
always-failing transformation. -/
theorem claim_C7_witness :
    failingExample.control_transformation = some failingTransformation ∧
    (∀ x y, failingTransformation x y = none) ∧
    (failingExample.control (.Absolute (1/2))
      (Target.mk (some (777/1000)) .AbsoluteContinuous) 0).1 =
      (({ failingExample with control_transformation := none } :
        Mode).control (.Absolute (1/2))
        (Target.mk (some (777/1000)) .AbsoluteContinuous) 0).1 :=
  ⟨rfl, fun _ _ => rfl,
    claim_C7 failingExample (Target.mk (some (777/1000)) .AbsoluteContinuous)
      failingTransformation rfl (fun _ _ => rfl) (.Absolute (1/2)) 0⟩

/-! ### Throttling (claim C3) -/

/-- Clamping any non-zero increment into a pure throttle interval
[−N, −N] yields −N. -/
theorem diClampToInterval_neg_const (N : ℕ) (hN : 1 ≤ N) (i : ℤ)
    (hi : i ≠ 0) : diClampToInterval i ⟨-(N : ℤ), -(N : ℤ)⟩ = -(N : ℤ) := by
  have h1 : 1 ≤ (i.natAbs : ℤ) := by
    have := Int.natAbs_pos.mpr hi
    exact_mod_cast this
  unfold diClampToInterval
  dsimp only []
  split
  · rcases min_cases (-(N : ℤ) + (i.natAbs : ℤ) - 1 + 1) (-(N : ℤ)) with
      ⟨he, hle⟩ | ⟨he, -⟩ <;> omega
  · rename_i hcond
    rw [not_and_or, not_lt, not_le] at hcond
    rcases min_cases (-(N : ℤ) + (i.natAbs : ℤ) - 1) (-(N : ℤ)) with
      ⟨he, hle⟩ | ⟨he, -⟩ <;> omega

/-- One relative `control` call on a Relative-type target under a pure
throttle interval [−N, −N]: the output presence and the new counter are
exactly what `its_time_to_fire` dictates. -/
theorem relThrottleStep (m : Mode) (N : ℕ) (hN : 1 ≤ N)
    (hsc : m.step_count_interval = ⟨-(N : ℤ), -(N : ℤ)⟩) (i : ℤ)
    (hi : i ≠ 0) (t : Target) (hct : t.control_type = .Relative) :
    (((m.control (.Relative i) t 0).1 ≠ none) ↔
      (m.its_time_to_fire N (Int.sign i)).1 = true) ∧
    (m.control (.Relative i) t 0).2 =
      { m with increment_counter := (m.its_time_to_fire N (Int.sign i)).2 } := by
  unfold Mode.control Mode.control_relative
  rw [hct]
  dsimp only []
  unfold Mode.pep_up_discrete_increment
  rw [hsc, diClampToInterval_neg_const N hN i hi]
  dsimp only []
  rw [if_neg (by omega : ¬(0 < -(N : ℤ)))]
  have hnat : (-(N : ℤ)).natAbs = N := by
    simp
  rw [hnat]
  rcases hf : m.its_time_to_fire N (Int.sign i) with ⟨fire, newc⟩
  rcases fire <;> dsimp only [] <;> constructor <;> simp

/-- Counter value after k constant-direction calls under a [−N, −N]
throttle, starting from a zero counter. -/
def throttleCounter (s : ℤ) (N k : ℕ) : ℤ :=
  if k = 0 then 0 else s * (((k - 1) % N : ℕ) + 1)

/-- Evaluation of `its_time_to_fire` on a throttle-run counter: it fires
exactly when k is a multiple of N, and steps the counter along
`throttleCounter`. -/
theorem its_time_to_fire_run (m : Mode) (N : ℕ) (hN : 1 ≤ N) (s : ℤ)
    (hs : s = 1 ∨ s = -1) (k : ℕ)
    (hc : m.increment_counter = throttleCounter s N k) :
    m.its_time_to_fire N s =
      (decide (k % N = 0), throttleCounter s N (k + 1)) := by
  unfold Mode.its_time_to_fire
  rcases Nat.eq_zero_or_pos k with hk | hk
  · subst hk
    unfold throttleCounter at hc
    rw [if_pos rfl] at hc
    rw [if_pos hc]
    unfold throttleCounter
    simp [Nat.mod_eq_of_lt hN, Nat.zero_mod]
  · have hkne : k ≠ 0 := Nat.pos_iff_ne_zero.mp hk
    unfold throttleCounter at hc
    rw [if_neg hkne] at hc
    set r : ℕ := (k - 1) % N with hr
    have hrlt : r < N := Nat.mod_lt _ (by omega)
    have hcval : m.increment_counter = s * ((r : ℤ) + 1) := hc
    have hcne : m.increment_counter ≠ 0 := by
      rcases hs with h | h <;> rw [hcval, h] <;> intro hcc <;> omega
    have hsign : m.increment_counter.sign = s := by
      rcases hs with h | h <;> rw [hcval, h]
      · exact Int.sign_eq_one_of_pos (by omega)
      · simp only [neg_one_mul, Int.sign_neg]
        have : (0 : ℤ) < (r : ℤ) + 1 := by omega
        rw [Int.sign_eq_one_of_pos this]
    rw [if_neg hcne, if_neg (by rw [hsign]; simp)]
    have habs : |m.increment_counter| = (r : ℤ) + 1 := by
      rcases hs with h | h <;> rw [hcval, h]
      · rw [one_mul, abs_of_pos (by omega)]
      · rw [neg_one_mul, abs_neg, abs_of_pos (by omega)]
    have hkmod : k % N = (r + 1) % N := by
      conv_lhs => rw [show k = (k - 1) + 1 by omega]
      rw [Nat.add_mod, ← hr, Nat.add_mod r 1 N, Nat.mod_eq_of_lt hrlt]
    by_cases hfull : r + 1 = N
    · have hcond : (N : ℤ) ≤ |m.increment_counter| := by
        rw [habs]; omega
      rw [if_pos hcond]
      have : k % N = 0 := by
        rw [hkmod, hfull, Nat.mod_self]
      rw [this]
      unfold throttleCounter
      rw [if_neg (by omega : ¬k + 1 = 0)]
      simp only [Nat.add_sub_cancel]
      rw [show k % N = 0 from this]
      simp
    · have hcond : ¬(N : ℤ) ≤ |m.increment_counter| := by
        rw [habs]; omega
      rw [if_neg hcond]
      have hkm : k % N = r + 1 := by
        rw [hkmod, Nat.mod_eq_of_lt (by omega)]
      rw [hkm]
      unfold throttleCounter
      rw [if_neg (by omega : ¬k + 1 = 0)]
      simp only [Nat.add_sub_cancel]
      rw [hkm, hcval, decide_eq_false (by omega : ¬(r + 1 = 0))]
      congr 1
      push_cast
      ring

/-- State of a mode after k successive relative `control` calls with
increments f 0, …, f (k − 1) on a fixed target. -/
def Mode.controlRun (m : Mode) (f : ℕ → ℤ) (t : Target) : ℕ → Mode
  | 0 => m
  | k + 1 => ((m.controlRun f t k).control (.Relative (f k)) t 0).2

/-- The (k + 1)-th call of a relative control run emits an output. -/
def Mode.runFires (m : Mode) (f : ℕ → ℤ) (t : Target) (k : ℕ) : Prop :=
  ((m.controlRun f t k).control (.Relative (f k)) t 0).1 ≠ none

/-- Along a constant-direction run under a [−N, −N] throttle started at a
zero counter, the step-count interval is preserved and the counter follows
`throttleCounter`. -/
theorem controlRun_invariant (m₀ : Mode) (N : ℕ) (hN : 1 ≤ N)
    (hsc : m₀.step_count_interval = ⟨-(N : ℤ), -(N : ℤ)⟩)
    (h0 : m₀.increment_counter = 0) (s : ℤ) (hs : s = 1 ∨ s = -1)
    (f : ℕ → ℤ) (hf : ∀ j, Int.sign (f j) = s) (t : Target)
    (hct : t.control_type = .Relative) (k : ℕ) :
    (m₀.controlRun f t k).step_count_interval = ⟨-(N : ℤ), -(N : ℤ)⟩ ∧
    (m₀.controlRun f t k).increment_counter = throttleCounter s N k := by
  induction k with
  | zero =>
    refine ⟨hsc, ?_⟩
    show m₀.increment_counter = throttleCounter s N 0
    rw [h0]
    rfl
  | succ k ih =>
    obtain ⟨ihsc, ihc⟩ := ih
    have hfz : f k ≠ 0 := by
      intro h
      have hsk := hf k
      rw [h] at hsk
      simp at hsk
      rcases hs with h1 | h1 <;> omega
    obtain ⟨-, hst⟩ :=
      relThrottleStep (m₀.controlRun f t k) N hN ihsc (f k) hfz t hct
    constructor
    · show ((m₀.controlRun f t k).control (.Relative (f k)) t
        0).2.step_count_interval = _
      rw [hst]
      exact ihsc
    · show ((m₀.controlRun f t k).control (.Relative (f k)) t
        0).2.increment_counter = _
      rw [hst, hf k, its_time_to_fire_run _ N hN s hs k ihc]

/-- A constant-direction throttle run fires at call k + 1 exactly when k
is a multiple of N. -/
theorem runFires_iff (m₀ : Mode) (N : ℕ) (hN : 1 ≤ N)
    (hsc : m₀.step_count_interval = ⟨-(N : ℤ), -(N : ℤ)⟩)
    (h0 : m₀.increment_counter = 0) (s : ℤ) (hs : s = 1 ∨ s = -1)
    (f : ℕ → ℤ) (hf : ∀ j, Int.sign (f j) = s) (t : Target)
    (hct : t.control_type = .Relative) (k : ℕ) :
    m₀.runFires f t k ↔ k % N = 0 := by
  obtain ⟨hsc', hc'⟩ :=
    controlRun_invariant m₀ N hN hsc h0 s hs f hf t hct k
  have hfz : f k ≠ 0 := by
    intro h
    have hsk := hf k
    rw [h] at hsk
    simp at hsk
    rcases hs with h1 | h1 <;> omega
  obtain ⟨hem, -⟩ :=
    relThrottleStep (m₀.controlRun f t k) N hN hsc' (f k) hfz t hct
  unfold Mode.runFires
  rw [hem, hf k, its_time_to_fire_run _ N hN s hs k hc']
  simp

/-- Every window of N consecutive indices starting at k contains the
multiple-of-N index k + (N − k % N) % N. -/
theorem throttle_window_mem (N : ℕ) (hN : 1 ≤ N) (k : ℕ) :
    k ≤ k + (N - k % N) % N ∧ k + (N - k % N) % N < k + N ∧
      (k + (N - k % N) % N) % N = 0 := by
  have hlt : k % N < N := Nat.mod_lt _ (by omega)
  by_cases hr : k % N = 0
  · have h1 : (N - k % N) % N = 0 := by
      rw [hr, Nat.sub_zero, Nat.mod_self]
    refine ⟨by omega, by omega, ?_⟩
    rw [h1, Nat.add_zero]
    exact hr
  · have h2 : (N - k % N) % N = N - k % N := Nat.mod_eq_of_lt (by omega)
    refine ⟨by omega, by omega, ?_⟩
    rw [h2, Nat.add_mod, h2, show k % N + (N - k % N) = N by omega,
      Nat.mod_self]

/-- A window of N consecutive indices contains at most one multiple
of N. -/
theorem throttle_window_unique (N : ℕ) (hN : 1 ≤ N) (k j₁ j₂ : ℕ)
    (h₁ : k ≤ j₁ ∧ j₁ < k + N) (h₂ : k ≤ j₂ ∧ j₂ < k + N)
    (hm₁ : j₁ % N = 0) (hm₂ : j₂ % N = 0) : j₁ = j₂ := by
  rcases le_total j₁ j₂ with hle | hle
  · have hd : N ∣ j₂ - j₁ :=
      Nat.dvd_sub' (Nat.dvd_of_mod_eq_zero hm₂)
        (Nat.dvd_of_mod_eq_zero hm₁)
    have := Nat.eq_zero_of_dvd_of_lt hd
    omega
  · have hd : N ∣ j₁ - j₂ :=
      Nat.dvd_sub' (Nat.dvd_of_mod_eq_zero hm₁)
        (Nat.dvd_of_mod_eq_zero hm₂)
    have := Nat.eq_zero_of_dvd_of_lt hd
    omega

/-- The full throttle law at throttle width N: (1) along any relative run
with constant increment direction under step_count_interval = [−N, −N],
every window of N consecutive calls emits exactly once; (2) a call whose
increment direction differs from the counter's always emits and resets
the throttle phase to the new direction; (3) the `its_time_to_fire` case
law. -/
def ThrottleLaw (N : ℕ) : Prop :=
  (∀ (m₀ : Mode) (s : ℤ) (f : ℕ → ℤ) (t : Target),
    m₀.step_count_interval = ⟨-(N : ℤ), -(N : ℤ)⟩ →
    m₀.increment_counter = 0 →
    (s = 1 ∨ s = -1) → (∀ j, Int.sign (f j) = s) →
    t.control_type = .Relative →
    ∀ k, ∃! j, (k ≤ j ∧ j < k + N) ∧ m₀.runFires f t j) ∧
  (∀ (m : Mode) (i : ℤ) (t : Target),
    t.control_type = .Relative →
    m.step_count_interval = ⟨-(N : ℤ), -(N : ℤ)⟩ →
    i ≠ 0 → m.increment_counter ≠ 0 →
    Int.sign m.increment_counter ≠ Int.sign i →
    (m.control (.Relative i) t 0).1 ≠ none ∧
    (m.control (.Relative i) t 0).2.increment_counter = Int.sign i) ∧
  (∀ (m : Mode) (nth : ℕ) (dir : ℤ),
    (m.increment_counter = 0 → m.its_time_to_fire nth dir = (true, dir)) ∧
    (m.increment_counter ≠ 0 → Int.sign m.increment_counter ≠ dir →
      m.its_time_to_fire nth dir = (true, dir)) ∧
    (m.increment_counter ≠ 0 → Int.sign m.increment_counter = dir →
      (nth : ℤ) ≤ |m.increment_counter| →
      m.its_time_to_fire nth dir = (true, dir)) ∧
    (m.increment_counter ≠ 0 → Int.sign m.increment_counter = dir →
      ¬(nth : ℤ) ≤ |m.increment_counter| →
      m.its_time_to_fire nth dir = (false, m.increment_counter + dir)))

/-- C3: With step_count_interval = [−N, −N] for N ≥ 1, a
constant-direction sequence of relative `control` calls emits exactly one
output per N consecutive calls; a direction change always emits and
resets the throttle phase; and `its_time_to_fire` obeys the four-case law
(fire on zero counter, on direction change, or on reaching the nth
magnitude, resetting the counter to the direction; otherwise advance the
counter by the direction without firing). -/
theorem claim_C3 (N : ℕ) (hN : 1 ≤ N) : ThrottleLaw N := by
  refine ⟨?_, ?_, ?_⟩
  · intro m₀ s f t hsc h0 hs hf hct k
    obtain ⟨h₁, h₂, h₃⟩ := throttle_window_mem N hN k
    refine ⟨k + (N - k % N) % N, ⟨⟨h₁, h₂⟩, ?_⟩, ?_⟩
    · exact (runFires_iff m₀ N hN hsc h0 s hs f hf t hct _).mpr h₃
    · rintro y ⟨⟨hy₁, hy₂⟩, hyf⟩
      exact throttle_window_unique N hN k y _ ⟨hy₁, hy₂⟩ ⟨h₁, h₂⟩
        ((runFires_iff m₀ N hN hsc h0 s hs f hf t hct y).mp hyf) h₃
  · intro m i t hct hsc hi hc hsign
    obtain ⟨hem, hst⟩ := relThrottleStep m N hN hsc i hi t hct
    have hfire : m.its_time_to_fire N (Int.sign i) =
        (true, Int.sign i) := by
      unfold Mode.its_time_to_fire
      rw [if_neg hc, if_pos hsign]
    constructor
    · rw [hem, hfire]
    · rw [hst, hfire]
  · intro m nth dir
    refine ⟨?_, ?_, ?_, ?_⟩
    · intro h0
      unfold Mode.its_time_to_fire
      rw [if_pos h0]
    · intro hc hsign
      unfold Mode.its_time_to_fire
      rw [if_neg hc, if_pos hsign]
    · intro hc hsign hmag
      unfold Mode.its_time_to_fire
      rw [if_neg hc, if_neg (by rw [hsign]; simp), if_pos hmag]
    · intro hc hsign hmag
      unfold Mode.its_time_to_fire
      rw [if_neg hc, if_neg (by rw [hsign]; simp), if_neg hmag]

/-- Witness for claim C3 at throttle width N = 2. -/
theorem claim_C3_witness : 1 ≤ 2 ∧ ThrottleLaw 2 :=
  ⟨by decide, claim_C3 2 (by decide)⟩

/-! ### Feedback as a left inverse of absolute-Normal control (claim C2) -/

/-- Without approach scaling, any value the jump filter emits is the
pepped-up value itself. -/
theorem hitting_emits_eq_of_no_approach (m : Mode) (cv : ℚ) (c : Option ℚ)
    (ct : ControlType) (v : ℚ) (happ : m.approach_target_value = false)
    (h : m.hitting_target_considering_max_jump cv c ct = some v) :
    v = cv := by
  unfold Mode.hitting_target_considering_max_jump at h
  rcases c with _ | cur
  · simp only [Option.some.injEq] at h
    exact h.symm
  · dsimp only [] at h
    split at h
    · exact hit_if_changed_eq m h
    · split at h
      · rw [happ] at h
        simp at h
      · split at h
        · exact absurd h (by simp)
        · exact hit_if_changed_eq m h

/-- On a unit input and an ordered interval, the affine target map needs
no clamping. -/
theorem mapFromUnitIntervalTo_eq_of_unit (u : ℚ) (dst : UInterval)
    (h : dst.lo ≤ dst.hi) (hu0 : 0 ≤ u) (hu1 : u ≤ 1) :
    mapFromUnitIntervalTo u dst = dst.lo + u * (dst.hi - dst.lo) := by
  unfold mapFromUnitIntervalTo
  apply clampTo_eq_of_mem
  constructor
  · nlinarith [mul_nonneg hu0 (sub_nonneg.mpr h)]
  · nlinarith [mul_le_of_le_one_left (sub_nonneg.mpr h) hu1]

/-- On a positive-span interval containing v, the source projection is
the plain affine ratio. -/
theorem mapToUnitIntervalFrom_eq_of_mem (v : ℚ) (src : UInterval)
    (b : MinIsMaxBehavior) (hspan : 0 < src.hi - src.lo)
    (hv : src.contains v) :
    mapToUnitIntervalFrom v src b = (v - src.lo) / (src.hi - src.lo) := by
  unfold mapToUnitIntervalFrom
  rw [if_pos hspan]
  exact clamp01_eq_of_mem (div_nonneg (by linarith [hv.1]) hspan.le)
    ((div_le_one hspan).mpr (by linarith [hv.2]))

/-- Feeding the target-side image of a unit value back through `feedback`
recovers the source-side image of that unit value. -/
theorem feedback_round_trip (m : Mode)
    (hft : m.feedback_transformation = none)
    (htgt : 0 < m.target_value_interval.hi - m.target_value_interval.lo)
    (u : ℚ) (hu0 : 0 ≤ u) (hu1 : u ≤ 1) :
    m.feedback (mapFromUnitIntervalTo
        (if m.reverse then inverseU u else u) m.target_value_interval) =
      some (mapFromUnitIntervalTo u m.source_value_interval) := by
  have hle : m.target_value_interval.lo ≤ m.target_value_interval.hi := by
    linarith
  have hw0 : 0 ≤ (if m.reverse then inverseU u else u) := by
    unfold inverseU
    split <;> linarith
  have hw1 : (if m.reverse then inverseU u else u) ≤ 1 := by
    unfold inverseU
    split <;> linarith
  rw [mapFromUnitIntervalTo_eq_of_unit _ _ hle hw0 hw1]
  have hymem : m.target_value_interval.contains
      (m.target_value_interval.lo +
        (if m.reverse then inverseU u else u) *
          (m.target_value_interval.hi - m.target_value_interval.lo)) := by
    constructor
    · nlinarith [mul_nonneg hw0 htgt.le]
    · nlinarith [mul_le_of_le_one_left htgt.le hw1]
  unfold Mode.feedback
  rw [if_neg (not_not_intro hymem), hft]
  dsimp only []
  rw [mapToUnitIntervalFrom_eq_of_mem _ _ _ htgt hymem]
  have hval : (m.target_value_interval.lo +
      (if m.reverse then inverseU u else u) *
        (m.target_value_interval.hi - m.target_value_interval.lo) -
      m.target_value_interval.lo) /
      (m.target_value_interval.hi - m.target_value_interval.lo) =
      (if m.reverse then inverseU u else u) := by
    field_simp
  rw [hval]
  have hwu : (if m.reverse then
      inverseU (if m.reverse then inverseU u else u)
    else (if m.reverse then inverseU u else u)) = u := by
    rcases m.reverse with _ | _ <;> simp [inverseU]
  rw [hwu]

/-- Without transformation and rounding, `pep_up_control_value` on a
PreferOne projection is the target-side affine image of the source
ratio. -/
theorem pep_up_eq_affine (m : Mode) (x : ℚ) (ct : ControlType)
    (cur : Option ℚ)
    (hct : m.control_transformation = none)
    (hround : m.round_target_value = false) :
    m.pep_up_control_value x ct cur .PreferOne =
      mapFromUnitIntervalTo
        (if m.reverse then
          inverseU (mapToUnitIntervalFrom x m.source_value_interval
            .PreferOne)
         else mapToUnitIntervalFrom x m.source_value_interval .PreferOne)
        m.target_value_interval := by
  unfold Mode.pep_up_control_value
  rw [hct, hround]
  simp [inverseU]

/-- Mode refuting the unrestricted C2 claim via approach scaling. -/
def approachExample : Mode :=
  { Mode.default with
    jump_interval := ⟨0, 1/5⟩
    approach_target_value := true }

/-- Mode refuting the unrestricted C2 claim via target-grid rounding. -/
def roundingExample : Mode :=
  { Mode.default with round_target_value := true }

/-- Mode refuting the unrestricted C2 claim via a bounded press-duration
window. -/
def pressWindowExample : Mode :=
  { Mode.default with
    press_duration_processor := ⟨0, some 1000, none, 0⟩ }

/-- C2 counterexample: with positive source and target spans and no
transformation configured, `feedback` still fails to invert
absolute-Normal `control` (1) under approach scaling (input 0 emits 2/5
whose feedback is 2/5, not 0), (2) under target-value rounding (input
13/25 emits the snapped 1/2 whose feedback is 1/2, not 13/25), and
(3) under a bounded press-duration window (the release input 0 emits the
recorded press amplitude 3/5 whose feedback is 3/5, not 0). -/
theorem claim_C2_counterexample :
    ((approachExample.control (.Absolute 0)
        (Target.mk (some (1/2)) .AbsoluteContinuous) 0).1 =
      some (.Absolute (2/5)) ∧
      approachExample.feedback (2/5) ≠ some 0) ∧
    ((roundingExample.control (.Absolute (13/25))
        (Target.mk (some 0) (.AbsoluteDiscrete (1/20))) 0).1 =
      some (.Absolute (1/2)) ∧
      roundingExample.feedback (1/2) ≠ some (13/25)) ∧
    ((pressWindowExample.control (.Absolute (3/5))
        (Target.mk (some 0) .AbsoluteContinuous) 0).1 = none ∧
      (((pressWindowExample.control (.Absolute (3/5))
          (Target.mk (some 0) .AbsoluteContinuous) 0).2).control
        (.Absolute 0) (Target.mk (some 0) .AbsoluteContinuous) 10).1 =
        some (.Absolute (3/5)) ∧
      pressWindowExample.feedback (3/5) ≠ some 0) := by
  refine ⟨⟨?_, ?_⟩, ⟨?_, ?_⟩, ⟨?_, ?_, ?_⟩⟩ <;>
    norm_num [approachExample, roundingExample, pressWindowExample,
      Mode.default, Mode.control, Mode.control_absolute_normal,
      PressDurationProcessor.process, PressDurationProcessor.default,
      Mode.absolute_normal_after_gate, Mode.source_bound_value,
      Mode.pep_up_control_value, mapToUnitIntervalFrom,
      mapFromUnitIntervalTo, inverseU, clampTo, clamp01,
      Mode.hitting_target_considering_max_jump, UInterval.isFull,
      UInterval.contains, Mode.hit_if_changed, calcDistanceFrom,
      uvToIncrement, addClamping, snapToGrid,
      round_to_nearest_discrete_value, ControlType.gridSize,
      ControlType.is_trigger, Mode.feedback, round_eq, min_def, max_def,
      abs, Option.some_ne_none, decide_eq_true_eq, Bool.and_eq_true]

/-- C2 (amended): in absolute-Normal mode with the press-duration gate in
its default pass-through configuration, no control or feedback
transformation, no target-value rounding, no approach scaling, positive
source and target spans, and an input x inside the source interval,
`feedback` inverts `control`: whenever control emits an absolute value v,
feedback v recovers x. -/
theorem claim_C2 (m : Mode) (t : Target) (x v : ℚ) (now : ℕ)
    (hmode : m.absolute_mode = .Normal)
    (hpdp : m.press_duration_processor = .default)
    (hct : m.control_transformation = none)
    (hft : m.feedback_transformation = none)
    (hround : m.round_target_value = false)
    (happ : m.approach_target_value = false)
    (hsrc : m.source_value_interval.lo < m.source_value_interval.hi)
    (htgt : m.target_value_interval.lo < m.target_value_interval.hi)
    (hx : m.source_value_interval.contains x)
    (hemit : (m.control (.Absolute x) t now).1 = some (.Absolute v)) :
    m.feedback v = some x := by
  unfold Mode.control at hemit
  rw [hmode] at hemit
  dsimp only [] at hemit
  rcases hcn : m.control_absolute_normal x t now with ⟨r, m2⟩
  rw [hcn] at hemit
  dsimp only [] at hemit
  rcases r with _ | w
  · simp at hemit
  · simp only [Option.map_some', Option.some.injEq,
      ControlValue.Absolute.injEq] at hemit
    subst hemit
    unfold Mode.control_absolute_normal at hcn
    rw [hpdp] at hcn
    have hproc : PressDurationProcessor.default.process x now =
        (some x, PressDurationProcessor.default) := rfl
    rw [hproc] at hcn
    dsimp only [] at hcn
    have hmeta : ({ m with press_duration_processor :=
        PressDurationProcessor.default } : Mode) = m := by
      rw [← hpdp]
    rw [hmeta] at hcn
    simp only [Prod.mk.injEq] at hcn
    obtain ⟨hgate, -⟩ := hcn
    unfold Mode.absolute_normal_after_gate at hgate
    have hsb : m.source_bound_value x = some (x, .PreferOne) := by
      unfold Mode.source_bound_value
      rw [if_pos hx]
    rw [hsb] at hgate
    dsimp only [] at hgate
    have hw := hitting_emits_eq_of_no_approach m _ t.current_value
      t.control_type w happ hgate
    rw [hw, pep_up_eq_affine m x t.control_type t.current_value hct
      hround]
    rw [feedback_round_trip m hft (by linarith) _
      (mapToUnitIntervalFrom_nonneg x m.source_value_interval .PreferOne)
      (mapToUnitIntervalFrom_le_one x m.source_value_interval .PreferOne)]
    congr 1
    rw [mapToUnitIntervalFrom_eq_of_mem x _ .PreferOne (by linarith) hx]
    unfold mapFromUnitIntervalTo
    rw [div_mul_cancel₀ _
      (by linarith : m.source_value_interval.hi -
        m.source_value_interval.lo ≠ 0)]
    have hback : m.source_value_interval.lo +
        (x - m.source_value_interval.lo) = x := by
      ring
    rw [hback]
    exact clampTo_eq_of_mem hx

/-- Witness for claim C2 at the default mode: input 1/2 on a continuous
target at 0 emits 1/2, and feedback recovers 1/2. -/
theorem claim_C2_witness :
    (Mode.default.control (.Absolute (1/2))
        (Target.mk (some 0) .AbsoluteContinuous) 0).1 =
      some (.Absolute (1/2)) ∧
    Mode.default.feedback (1/2) = some (1/2) := by
  have he : (Mode.default.control (.Absolute (1/2))
      (Target.mk (some 0) .AbsoluteContinuous) 0).1 =
      some (.Absolute (1/2)) := by
    norm_num [Mode.default, Mode.control, Mode.control_absolute_normal,
      PressDurationProcessor.process, PressDurationProcessor.default,
      Mode.absolute_normal_after_gate, Mode.source_bound_value,
      Mode.pep_up_control_value, mapToUnitIntervalFrom,
      mapFromUnitIntervalTo, inverseU, clampTo, clamp01,
      Mode.hitting_target_considering_max_jump, UInterval.isFull,
      UInterval.contains, Mode.hit_if_changed, min_def, max_def, abs]
  exact ⟨he,
    claim_C2 Mode.default (Target.mk (some 0) .AbsoluteContinuous)
      (1/2) (1/2) 0 rfl rfl rfl rfl rfl rfl
      (by norm_num [Mode.default]) (by norm_num [Mode.default])
      (by constructor <;> norm_num [Mode.default]) he⟩

end HelgobossLearn
